import Mathlib

/-!
Verification development for the native CLR profiler of
opentelemetry-dotnet-instrumentation (cor_profiler.cpp and
environment_variables_util.h), as a shallow embedding in Lean 4.

Each definition mirrors one function or code region of the source; the
doc comment of a definition names the source symbol it embeds.  External
primitives (the host runtime, the metadata emitter, the low-level IL
reader/writer) are represented by abstract inputs, exactly at the
interface boundary the source uses them.
-/

namespace OTelProfiler

/-! ## Environment-variable configuration predicates
Embedding of environment_variables_util.h.  The macro bodies keep a
function-local static int sValue initialised to -1; the model threads
that cache cell explicitly.  TrueCondition and FalseCondition live in
environment_variables_parser.h (outside the sources considered here), so
they are passed as abstract predicates on the environment value. -/

/-- Embedding of the ToBooleanWithDefault macro: given the parser
predicates tc and fc, the DEFAULT value, the current environment value
and the cached sValue cell, it returns the boolean result together with
the updated cache cell. -/
def toBooleanWithDefault (tc fc : String → Bool) (dflt : Bool) (envValue : String)
    (sValue : Int) : Bool × Int :=
  let s : Int :=
    if sValue = -1 then
      if tc envValue then 1
      else if fc envValue then 0
      else if dflt then 1 else 0
    else sValue
  (s = 1, s)

/-- Embedding of the CheckIfTrue macro. -/
def checkIfTrue (tc : String → Bool) (envValue : String) (sValue : Int) : Bool × Int :=
  let s : Int := if sValue = -1 then (if tc envValue then 1 else 0) else sValue
  (s = 1, s)

/-- Embedding of the CheckIfFalse macro. -/
def checkIfFalse (fc : String → Bool) (envValue : String) (sValue : Int) : Bool × Int :=
  let s : Int := if sValue = -1 then (if fc envValue then 1 else 0) else sValue
  (s = 1, s)

/-- Embedding of trace::AreTracesEnabled: ToBooleanWithDefault over the
traces_enabled environment value with default true. -/
def AreTracesEnabled (tc fc : String → Bool) (envValue : String) (sValue : Int) :
    Bool × Int :=
  toBooleanWithDefault tc fc true envValue sValue

/-- Embedding of trace::EnableInlining: ToBooleanWithDefault over the
clr_enable_inlining environment value with default true. -/
def EnableInlining (tc fc : String → Bool) (envValue : String) (sValue : Int) :
    Bool × Int :=
  toBooleanWithDefault tc fc true envValue sValue

/-- Embedding of trace::IsNGENEnabled: ToBooleanWithDefault over the
clr_enable_ngen environment value with default false. -/
def IsNGENEnabled (tc fc : String → Bool) (envValue : String) (sValue : Int) :
    Bool × Int :=
  toBooleanWithDefault tc fc false envValue sValue

/-! ## Method-matching scan
Embedding of the inner candidate loop of
CorProfiler::CallTarget_RequestRejitForModule (cor_profiler.cpp,
lines 2416-2494): for a type that matched an integration target, every
method sharing the target name is enumerated and matched against the
descriptor signature. -/

/-- Log levels produced on the skip paths of the candidate loop: a
candidate with an invalid FunctionInfo or an unparsable signature is
skipped with a warning, while an argument-count or argument-type
mismatch is skipped at debug level. -/
inductive ScanLogEvent where
  | warnInvalidCaller
  | warnParseFailure
  | debugCountMismatch
  | debugArgTypeMismatch
  deriving DecidableEq, Repr

/-- Abstraction of one enumerated mdMethodDef of the matched type:
callerValid is GetFunctionInfo(...).IsValid(), parseOk records whether
method_signature.TryParse() succeeded, and argTypeNames is the list of
resolved parameter type names (GetTypeTokName of each entry of
GetMethodArguments); NumberOfArguments is its length. -/
structure CandidateMethod where
  methodDef : Nat
  callerValid : Bool
  parseOk : Bool
  argTypeNames : List String
  deriving DecidableEq, Repr

/-- Value of signature_types.size() - 1 computed in size_t arithmetic:
the subtraction wraps modulo 2^64 when the vector is empty. -/
def sizeTSubOne (n : Nat) : Nat :=
  (n + (2 ^ 64 - 1)) % 2 ^ 64

/-- Embedding of the per-argument comparison loop: index i walks the
remaining parsed argument type names, comparing argument i against
signature_types[i + 1]; a pair differs only when the descriptor entry
is neither equal to the resolved name nor the wildcard "_".  The getD
default is never read on the paths the source reaches, because the loop
only runs after the argument-count check has passed. -/
def argumentsMismatchLoop (sigTypes : List String) : List String → Nat → Bool
  | [], _ => false
  | a :: rest, i =>
    let t := sigTypes.getD (i + 1) ""
    if a ≠ t ∧ t ≠ "_" then true
    else argumentsMismatchLoop sigTypes rest (i + 1)

/-- Embedding of the candidate loop of CallTarget_RequestRejitForModule:
for each enumerated candidate, skip with a warning if the FunctionInfo
is invalid or the signature does not parse, skip at debug level if the
argument count differs from signature_types.size() - 1 or some argument
type mismatches, and otherwise register the mdMethodDef for ReJIT.
Returns the registered method tokens in order, with the log events of
the skip paths. -/
def callTargetScanCandidates (sigTypes : List String) :
    List CandidateMethod → List Nat × List ScanLogEvent
  | [] => ([], [])
  | c :: rest =>
    let r := callTargetScanCandidates sigTypes rest
    if !c.callerValid then (r.1, .warnInvalidCaller :: r.2)
    else if !c.parseOk then (r.1, .warnParseFailure :: r.2)
    else if c.argTypeNames.length ≠ sizeTSubOne sigTypes.length then
      (r.1, .debugCountMismatch :: r.2)
    else if argumentsMismatchLoop sigTypes c.argTypeNames 0 then
      (r.1, .debugArgTypeMismatch :: r.2)
    else (c.methodDef :: r.1, r.2)

/-- Matching condition in the words of the specification, for the
refinement statement of the scan: the parsed argument count equals the
descriptor argument count (signature_types lists the return type first),
and every argument position either equals the corresponding descriptor
entry or that entry is the wildcard "_". -/
def specArgumentMatchesB (sigTypes : List String) (args : List String) : Bool :=
  args.length + 1 == sigTypes.length &&
    (List.range args.length).all fun i =>
      args.getD i "" == sigTypes.getD (i + 1) "" || sigTypes.getD (i + 1) "" == "_"

/-! ## Bytecode rewriter
Embedding of CorProfiler::CallTarget_RewriterCallback (cor_profiler.cpp,
lines 2561-3092).  The IL reader/writer primitive (ILRewriter and
ILRewriterWrapper) is the external library the source treats as given:
an editable instruction list into which instructions are inserted at the
current position and whose branch targets track instruction identity.
Instructions are therefore modelled as a list, with branch targets and
exception-clause boundaries as symbolic names of the distinguished
instructions the source takes pointers to. -/

/-- Branch targets taken by the rewriter: the first instruction of the
original method body, the EndFinally instruction, and the instruction
following EndFinally (the start of the shared epilogue). -/
inductive Tgt where
  | bodyBegin
  | endFinallyTarget
  | afterFinally
  deriving DecidableEq, Repr

/-- Instruction forms of the rewritten stream.  The constructors
correspond one to one to the ILRewriterWrapper and CallTargetTokens
emission helpers the source calls; localsInit stands for the
local-initialisation block emitted by
CallTargetTokens::ModifyLocalSigAndInitialize (its module is not among
the sources here; it emits no return instruction), and original carries
any other opcode of the imported method body. -/
inductive Instr where
  | localsInit
  | loadNull
  | loadArgument (n : Nat)
  | loadObj (tok : Nat)
  | createArray (typeRef : Nat) (len : Nat)
  | beginLoadValueIntoArray (i : Nat)
  | endLoadValueIntoArray
  | box (tok : Nat)
  | stLocal (n : Nat)
  | loadLocal (n : Nat)
  | loadLocalAddress (n : Nat)
  | callBeginMethod
  | callLogException
  | callEndMethodVoid
  | callEndMethodRet
  | callGetReturnValue
  | leaveS (t : Tgt)
  | rethrow
  | endFinally
  | ret
  | original (code : Nat)
  deriving DecidableEq, Repr

/-- Symbolic names for the instructions whose identity bounds the
exception-handling clauses built by the rewriter, plus arbitrary marks
for the boundaries of pre-existing clauses. -/
inductive Mark where
  | firstInstruction
  | beginCatchFirst
  | beginCatchLeave
  | startExceptionCatch
  | rethrowInstr
  | afterRethrow
  | endTryStart
  | endCatchFirst
  | endCatchLeave
  | endFinallyInstr
  | orig (n : Nat)
  deriving DecidableEq, Repr

/-- Exception-handling clause as the rewriter manipulates it (EHClause):
flags 0 is COR_ILEXCEPTION_CLAUSE_NONE and flags 2 is
COR_ILEXCEPTION_CLAUSE_FINALLY. -/
structure EHClauseM where
  flags : Nat
  tryBegin : Mark
  tryEnd : Mark
  handlerBegin : Mark
  handlerEnd : Mark
  classToken : Nat
  deriving DecidableEq, Repr

/-- Reasons for which CallTarget_RewriterCallback returns S_FALSE
without committing a rewritten body, one per return statement of the
source. -/
inductive AbortReason where
  | profilerModuleNotLoaded
  | instrumentationMetadataNotFound
  | wrapperTypeNotFound
  | noWrapperMethodFound
  | profilerNotInAppDomain
  | importFailed
  | staticValueType
  | genericValueTypeNoSpec
  | byRefParameter
  | boxTokenNil
  | writeBeginFailed
  | exportFailed
  deriving DecidableEq, Repr

/-- HRESULT values the callback returns. -/
inductive HRes where
  | sOk
  | sFalse
  deriving DecidableEq, Repr

/-- Rewritten method body as handed to ILRewriter::Export: the final
instruction stream and the exception-handling table. -/
structure RewrittenBody where
  stream : List Instr
  eh : List EHClauseM
  deriving DecidableEq, Repr

/-- Outcome of the rewriter callback.  committed is the body submitted
through the granted function control when Export succeeds;
exportAttempted records whether ILRewriter::Export was reached at
all. -/
structure RewriteOutcome where
  hr : HRes
  committed : Option RewrittenBody
  abortReason : Option AbortReason
  exportAttempted : Bool
  deriving DecidableEq, Repr

/-- Type information of the target method owner used by the rewriter:
valueType, the concrete type spec when one exists (mdTypeSpecNil is
none), genericity, and the mdTypeDef token. -/
structure TypeInfo where
  id : Nat
  valueType : Bool
  typeSpec : Option Nat
  isGeneric : Bool
  deriving DecidableEq, Repr

/-- One declared argument of the target method: whether the parsed type
flags carry TypeFlagByRef, whether they carry TypeFlagBoxedType, and the
metadata token of the declared type as returned by GetTypeTok
(mdTokenNil is none). -/
structure ArgInfo where
  byRef : Bool
  boxed : Bool
  typeTok : Option Nat
  deriving DecidableEq, Repr

/-- Target method as the rewriter sees it: return kind, staticness, the
owning type, the declared arguments, the imported instruction stream and
the pre-existing exception-handling table. -/
structure CallerInfo where
  isVoid : Bool
  isStatic : Bool
  type : TypeInfo
  args : List ArgInfo
  body : List Instr
  ehClauses : List EHClauseM
  deriving DecidableEq, Repr

/-- Host- and metadata-side context of one invocation of the callback.
Each boolean records the success of one of the external calls the
source checks, in source order; fastpathCount is the FASTPATH_COUNT
constant (defined in calltarget_tokens.h, outside the sources here, so
kept as a parameter); the token and local-slot fields are the values
produced by CallTargetTokens and ModifyLocalSigAndInitialize. -/
structure RewriteEnv where
  managedProfilerModuleLoaded : Bool
  instrumentationMetadataFound : Bool
  wrapperTypeFound : Bool
  hookOnMethodBegin : Bool
  hookOnMethodEnd : Bool
  hookOnAsyncMethodEnd : Bool
  profilerLoadedInAppDomain : Bool
  importOk : Bool
  writeBeginOk : Bool
  exportOk : Bool
  fastpathCount : Nat
  objectTypeRef : Nat
  exceptionTypeRef : Nat
  callTargetStateIndex : Nat
  exceptionIndex : Nat
  callTargetReturnIndex : Nat
  returnValueIndex : Nat
  deriving DecidableEq, Repr

/-- Receiver-loading block of the rewriter (emitted identically at the
begin-method part, lines 2724-2767, and at the end-method part, lines
2903-2948): null for a static method of a reference type, the this
argument for an instance method, dereferenced through the type spec or
the type token for a value type; static methods of value types and
instance methods of generic value types without a concrete type spec
abort. -/
def loadReceiver (caller : CallerInfo) : Except AbortReason (List Instr) :=
  if caller.isStatic then
    if caller.type.valueType then .error .staticValueType
    else .ok [.loadNull]
  else
    if caller.type.valueType then
      match caller.type.typeSpec with
      | some ts => .ok [.loadArgument 0, .loadObj ts]
      | none =>
        if !caller.type.isGeneric then .ok [.loadArgument 0, .loadObj caller.type.id]
        else .error .genericValueTypeNoSpec
    else .ok [.loadArgument 0]

/-- Fast-path argument loading (lines 2773-2784): each argument is
loaded directly, skipping the receiver slot for instance methods; a
by-reference argument aborts the rewrite. -/
def loadArgumentsFastAux (isStatic : Bool) : Nat → List ArgInfo →
    Except AbortReason (List Instr)
  | _, [] => .ok []
  | i, a :: rest =>
    if a.byRef then .error .byRefParameter
    else do
      let l ← loadArgumentsFastAux isStatic (i + 1) rest
      .ok (.loadArgument (i + (if isStatic then 0 else 1)) :: l)

/-- Slow-path element loading (lines 2788-2811): each argument is
stored into the object array; a by-reference argument aborts, and an
argument whose type flags carry TypeFlagBoxedType is boxed through the
token of its own declared type, aborting when that token is
mdTokenNil. -/
def loadArgumentsSlowAux (isStatic : Bool) : Nat → List ArgInfo →
    Except AbortReason (List Instr)
  | _, [] => .ok []
  | i, a :: rest =>
    if a.byRef then .error .byRefParameter
    else do
      let boxInstrs ←
        if a.boxed then
          match a.typeTok with
          | none => Except.error AbortReason.boxTokenNil
          | some tok => Except.ok [Instr.box tok]
        else Except.ok []
      let l ← loadArgumentsSlowAux isStatic (i + 1) rest
      .ok ([.beginLoadValueIntoArray i, .loadArgument (i + (if isStatic then 0 else 1))]
            ++ boxInstrs ++ [.endLoadValueIntoArray] ++ l)

/-- Argument-marshaling step of the rewriter (lines 2769-2812): the
arguments are loaded individually when their number is strictly below
FASTPATH_COUNT, and through a new object array otherwise. -/
def loadMethodArguments (fastpathCount : Nat) (isStatic : Bool) (objectTypeRef : Nat)
    (args : List ArgInfo) : Except AbortReason (List Instr) :=
  if args.length < fastpathCount then
    loadArgumentsFastAux isStatic 0 args
  else do
    let l ← loadArgumentsSlowAux isStatic 0 args
    .ok (.createArray objectTypeRef args.length :: l)

/-- Begin-method block of the rewritten stream (lines 2707-2879), in
emission order at the original entry point: the local-initialisation
block, the receiver load, the argument loads, the BeginMethod call whose
result is stored into the CallTargetState local, the leave into the
original body, and the hook-failure catch handler (LogException followed
by its leave into the original body). -/
def beginPartInstrs (env : RewriteEnv) (recv argInstrs : List Instr) : List Instr :=
  [.localsInit] ++ recv ++ argInstrs ++
    [.callBeginMethod, .stLocal env.callTargetStateIndex, .leaveS .bodyBegin,
     .callLogException, .leaveS .bodyBegin]

/-- Exception-catch block capturing the original method exception
(lines 2891-2896): store into the Exception local, then rethrow. -/
def excPartInstrs (env : RewriteEnv) : List Instr :=
  [.stLocal env.exceptionIndex, .rethrow]

/-- End-method (finally) block (lines 2898-3000): receiver load, the
return-value local (non-void only), the Exception and CallTargetState
locals, the EndMethod call stored into the CallTargetReturn local, the
GetReturnValue extraction back into the return-value local (non-void
only), the leave to EndFinally, the hook-failure catch handler, and
EndFinally itself. -/
def endPartInstrs (env : RewriteEnv) (isVoid : Bool) (recv : List Instr) : List Instr :=
  recv ++ (if isVoid then [] else [.loadLocal env.returnValueIndex]) ++
    [.loadLocal env.exceptionIndex, .loadLocal env.callTargetStateIndex,
     (if isVoid then .callEndMethodVoid else .callEndMethodRet),
     .stLocal env.callTargetReturnIndex] ++
    (if isVoid then []
     else [.loadLocalAddress env.callTargetReturnIndex, .callGetReturnValue,
           .stLocal env.returnValueIndex]) ++
    [.leaveS .endFinallyTarget, .callLogException, .leaveS .endFinallyTarget,
     .endFinally]

/-- Shared epilogue (lines 2885-2889 and 3006-3010): reload the
return-value local when the method is non-void, then the single return
instruction appended at the end of the stream. -/
def epiloguePartInstrs (env : RewriteEnv) (isVoid : Bool) : List Instr :=
  (if isVoid then [] else [.loadLocal env.returnValueIndex]) ++ [.ret]

/-- Replacement the return-rewriting loop applies to one instruction:
a CEE_RET becomes a store into the return-value local (non-void only)
followed by a LEAVE_S to the instruction after EndFinally, and every
other instruction is kept. -/
def retReplacement (isVoid : Bool) (retIdx : Nat) (i : Instr) : List Instr :=
  if i = .ret then
    (if isVoid then [] else [.stLocal retIdx]) ++ [.leaveS .afterFinally]
  else [i]

/-- Embedding of the loop at lines 3012-3034 that walks the whole
assembled instruction list and changes every CEE_RET into the
replacement above; the single exception is methodReturnInstr, the
return appended at the end of the list, which is left in place. -/
def changeRets (isVoid : Bool) (retIdx : Nat) : List Instr → List Instr
  | [] => []
  | [i] => [i]
  | i :: j :: rest => retReplacement isVoid retIdx i ++ changeRets isVoid retIdx (j :: rest)

/-- Exception clause guarding the BeginMethod hook call (lines
2865-2872). -/
def beginMethodExClause (exceptionTypeRef : Nat) : EHClauseM :=
  { flags := 0, tryBegin := .firstInstruction, tryEnd := .beginCatchFirst,
    handlerBegin := .beginCatchFirst, handlerEnd := .beginCatchLeave,
    classToken := exceptionTypeRef }

/-- Exception clause guarding the EndMethod hook call (lines
2988-2995). -/
def endMethodExClause (exceptionTypeRef : Nat) : EHClauseM :=
  { flags := 0, tryBegin := .endTryStart, tryEnd := .endCatchFirst,
    handlerBegin := .endCatchFirst, handlerEnd := .endCatchLeave,
    classToken := exceptionTypeRef }

/-- Outer catch clause around the original body (lines 3037-3043). -/
def exClause (exceptionTypeRef : Nat) : EHClauseM :=
  { flags := 0, tryBegin := .firstInstruction, tryEnd := .startExceptionCatch,
    handlerBegin := .startExceptionCatch, handlerEnd := .rethrowInstr,
    classToken := exceptionTypeRef }

/-- Finally clause running the end-method block (lines 3045-3050); its
class token stays value-initialised. -/
def finallyClause : EHClauseM :=
  { flags := 2, tryBegin := .firstInstruction, tryEnd := .afterRethrow,
    handlerBegin := .afterRethrow, handlerEnd := .endFinallyInstr,
    classToken := 0 }

/-- Outcome of every S_FALSE return taken before ILRewriter::Export. -/
def abortOutcome (r : AbortReason) : RewriteOutcome :=
  { hr := .sFalse, committed := none, abortReason := some r, exportAttempted := false }

/-- Embedding of CorProfiler::CallTarget_RewriterCallback.  The guards
appear in source order: the managed profiler module id, the
instrumentation module metadata lookup, FindTypeDefByName on the wrapper
type, the probe for the three expected wrapper method names, the
app-domain load check, and ILRewriter::Import.  The body is then
assembled in emission order, every original return is rewritten by the
changeRets loop, the four new exception clauses are appended to the
copied table, and Export commits the result. -/
def callTargetRewriterCallback (env : RewriteEnv) (caller : CallerInfo) :
    RewriteOutcome :=
  if !env.managedProfilerModuleLoaded then abortOutcome .profilerModuleNotLoaded
  else if !env.instrumentationMetadataFound then
    abortOutcome .instrumentationMetadataNotFound
  else if !env.wrapperTypeFound then abortOutcome .wrapperTypeNotFound
  else if !(env.hookOnMethodBegin || env.hookOnMethodEnd || env.hookOnAsyncMethodEnd)
  then abortOutcome .noWrapperMethodFound
  else if !env.profilerLoadedInAppDomain then abortOutcome .profilerNotInAppDomain
  else if !env.importOk then abortOutcome .importFailed
  else
    match loadReceiver caller with
    | .error r => abortOutcome r
    | .ok recv =>
      match loadMethodArguments env.fastpathCount caller.isStatic env.objectTypeRef
          caller.args with
      | .error r => abortOutcome r
      | .ok argInstrs =>
        if !env.writeBeginOk then abortOutcome .writeBeginFailed
        else
          match loadReceiver caller with
          | .error r => abortOutcome r
          | .ok recv2 =>
            let assembled :=
              beginPartInstrs env recv argInstrs ++ caller.body ++
                excPartInstrs env ++ endPartInstrs env caller.isVoid recv2 ++
                epiloguePartInstrs env caller.isVoid
            let stream := changeRets caller.isVoid env.returnValueIndex assembled
            let eh := caller.ehClauses ++
              [beginMethodExClause env.exceptionTypeRef,
               endMethodExClause env.exceptionTypeRef,
               exClause env.exceptionTypeRef,
               finallyClause]
            if !env.exportOk then
              { hr := .sFalse, committed := none, abortReason := some .exportFailed,
                exportAttempted := true }
            else
              { hr := .sOk, committed := some ⟨stream, eh⟩, abortReason := none,
                exportAttempted := true }

/-! ## Profiler entry points and shared state
Embedding of the host-callback entry points of CorProfiler:
AssemblyLoadFinished, ModuleLoadFinished, ModuleUnloadStarted,
Shutdown, ProfilerDetachSucceeded, JITCompilationStarted,
AppDomainShutdownFinished, JITInlining, ReJITCompilationStarted,
GetReJITParameters, ReJITCompilationFinished, ReJITError and
JITCachedFunctionSearchStarted.  The shared state is
module_id_to_info_map_ guarded by module_id_to_info_map_lock_, the
atomic is_attached_ flag, the rejit handler, and the two app-domain
sets.  Each entry point additionally produces a trace of abstract
actions recording, in execution order, its checks of the attached flag,
its acquisition and release of the cache guard, and its touches of the
module, rejit and app-domain state, so that the check discipline of the
source is itself a stated object. -/

/-- Abstract actions traced by the modelled entry points. -/
inductive Action where
  | checkAttached
  | acquireGuard
  | releaseGuard
  | touchModuleState
  | touchRejitState
  | touchAppDomainState
  deriving DecidableEq, Repr

/-- Module metadata record of module_id_to_info_map_, reduced to the
field the modelled entry points read. -/
structure ModuleMeta where
  appDomainId : Nat
  deriving DecidableEq, Repr

/-- Rejit handler bookkeeping: for each module id, the method tokens
registered for rewrite (RejitHandlerModule::ContainsMethod). -/
structure RejitHandlerState where
  modules : List (Nat × List Nat)
  deriving DecidableEq, Repr

/-- Process-wide engine state: the attached flag, the module metadata
cache, the rejit handler (none once deleted), and the two app-domain
bookkeeping sets. -/
structure ProfilerState where
  isAttached : Bool
  moduleMap : List (Nat × ModuleMeta)
  rejit : Option RejitHandlerState
  managedProfilerLoadedAppDomains : List Nat
  firstJitCompilationAppDomains : List Nat
  deriving DecidableEq, Repr

/-- Result of one modelled entry point: returned HRESULT, the engine
state after the call, the value the entry point hands onward, and the
action trace. -/
structure EntryOut (α : Type) where
  hr : HRes
  state : ProfilerState
  value : α
  trace : List Action
  deriving DecidableEq, Repr

/-- Lookup of module_id_to_info_map_.find(moduleId). -/
def findModuleMetadata (m : List (Nat × ModuleMeta)) (moduleId : Nat) :
    Option ModuleMeta :=
  match m.find? (fun p => p.1 == moduleId) with
  | some p => some p.2
  | none => none

/-- Embedding of RejitHandler::TryGetModule followed by
RejitHandlerModule::ContainsMethod. -/
def rejitContainsMethod (rh : RejitHandlerState) (moduleId methodToken : Nat) : Bool :=
  match rh.modules.find? (fun p => p.1 == moduleId) with
  | some p => p.2.contains methodToken
  | none => false

/-- Embedding of CorProfiler::GetReJITParameters (lines 2236-2264): an
early return when detached, then a module metadata lookup under the
cache guard; only when the record is present is
RejitHandler::NotifyReJITParameters invoked (the value carries its
arguments), and an absent record returns S_FALSE without notifying. -/
def getReJITParameters (st : ProfilerState) (moduleId methodId : Nat) :
    EntryOut (Option (Nat × Nat × ModuleMeta)) :=
  if !st.isAttached then ⟨.sOk, st, none, [.checkAttached]⟩
  else
    match findModuleMetadata st.moduleMap moduleId with
    | some md =>
      ⟨.sOk, st, some (moduleId, methodId, md),
        [.checkAttached, .acquireGuard, .touchModuleState, .releaseGuard,
         .touchRejitState]⟩
    | none =>
      ⟨.sFalse, st, none,
        [.checkAttached, .acquireGuard, .touchModuleState, .releaseGuard]⟩

/-- Embedding of CorProfiler::ModuleUnloadStarted (lines 745-802): after
the attached check, the cache guard is taken and the flag re-checked;
when the module record exists its app domain is dropped from
managed_profiler_loaded_app_domains, the record is erased from the map,
RejitHandler::RemoveModule drops the per-module rewrite state, and the
metadata is deleted. -/
def moduleUnloadStarted (st : ProfilerState) (moduleId : Nat) : EntryOut Unit :=
  if !st.isAttached then ⟨.sOk, st, (), [.checkAttached]⟩
  else if !st.isAttached then
    ⟨.sOk, st, (), [.checkAttached, .acquireGuard, .checkAttached, .releaseGuard]⟩
  else
    match findModuleMetadata st.moduleMap moduleId with
    | some md =>
      let domains :=
        if st.managedProfilerLoadedAppDomains.contains md.appDomainId then
          st.managedProfilerLoadedAppDomains.filter (fun d => d != md.appDomainId)
        else st.managedProfilerLoadedAppDomains
      let map' := st.moduleMap.filter (fun p => p.1 != moduleId)
      let rejit' :=
        match st.rejit with
        | some rh => some ⟨rh.modules.filter (fun p => p.1 != moduleId)⟩
        | none => none
      ⟨.sOk,
        { st with moduleMap := map', managedProfilerLoadedAppDomains := domains,
                  rejit := rejit' }, (),
        [.checkAttached, .acquireGuard, .checkAttached, .touchModuleState,
         .touchRejitState, .releaseGuard]⟩
    | none =>
      ⟨.sOk, st, (),
        [.checkAttached, .acquireGuard, .checkAttached, .touchModuleState,
         .releaseGuard]⟩

/-- Embedding of CorProfiler::JITInlining (lines 894-928): an early
return when detached or the rejit handler is gone; otherwise
pfShouldInline is set to true, left true when GetFunctionInfo fails
(funcInfo is its result), and set to false exactly when the callee pair
is registered in the rejit handler.  The value is the written
pfShouldInline, none when the early return leaves it unwritten. -/
def jitInlining (st : ProfilerState) (funcInfo : Option (Nat × Nat)) :
    EntryOut (Option Bool) :=
  if !st.isAttached then ⟨.sOk, st, none, [.checkAttached]⟩
  else
    match st.rejit with
    | none => ⟨.sOk, st, none, [.checkAttached]⟩
    | some rh =>
      match funcInfo with
      | none => ⟨.sOk, st, some true, [.checkAttached]⟩
      | some (mid, tok) =>
        if rejitContainsMethod rh mid tok then
          ⟨.sOk, st, some false, [.checkAttached, .touchRejitState]⟩
        else ⟨.sOk, st, some true, [.checkAttached, .touchRejitState]⟩

/-- Embedding of CorProfiler::ReJITCompilationStarted (lines 2220-2234):
an attached check followed by the rejit handler notification. -/
def reJITCompilationStarted (st : ProfilerState) : EntryOut Unit :=
  if !st.isAttached then ⟨.sOk, st, (), [.checkAttached]⟩
  else ⟨.sOk, st, (), [.checkAttached, .touchRejitState]⟩

/-- Embedding of CorProfiler::AppDomainShutdownFinished (lines 869-892):
attached check, cache guard, re-check, then erasure of the app domain
from first_jit_compilation_app_domains. -/
def appDomainShutdownFinished (st : ProfilerState) (appDomainId : Nat) :
    EntryOut Unit :=
  if !st.isAttached then ⟨.sOk, st, (), [.checkAttached]⟩
  else if !st.isAttached then
    ⟨.sOk, st, (), [.checkAttached, .acquireGuard, .checkAttached, .releaseGuard]⟩
  else
    ⟨.sOk,
      { st with firstJitCompilationAppDomains :=
          st.firstJitCompilationAppDomains.filter (fun d => d != appDomainId) }, (),
      [.checkAttached, .acquireGuard, .checkAttached, .touchAppDomainState,
       .releaseGuard]⟩

/-- Embedding of CorProfiler::ProfilerDetachSucceeded (lines 824-846):
attached check, cache guard, re-check, then the attached flag is
cleared. -/
def profilerDetachSucceeded (st : ProfilerState) : EntryOut Unit :=
  if !st.isAttached then ⟨.sOk, st, (), [.checkAttached]⟩
  else if !st.isAttached then
    ⟨.sOk, st, (), [.checkAttached, .acquireGuard, .checkAttached, .releaseGuard]⟩
  else
    ⟨.sOk, { st with isAttached := false }, (),
      [.checkAttached, .acquireGuard, .checkAttached, .releaseGuard]⟩

/-- Embedding of CorProfiler::JITCachedFunctionSearchStarted (lines
2294-2350): early return when detached or the out parameter is null,
then under the cache guard the function info (funcInfo abstracts
GetFunctionInfo), the module metadata lookup, and the loader-injection
check decide pbUseCachedFunction; the value is the written
pbUseCachedFunction.  The attached flag is not re-checked after the
guard is taken. -/
def jitCachedFunctionSearchStarted (st : ProfilerState) (pbValid : Bool)
    (funcInfo : Option (Nat × Nat)) : EntryOut (Option Bool) :=
  if !st.isAttached || !pbValid then ⟨.sOk, st, none, [.checkAttached]⟩
  else
    match funcInfo with
    | none => ⟨.sOk, st, none, [.checkAttached, .acquireGuard, .releaseGuard]⟩
    | some (mid, _tok) =>
      match findModuleMetadata st.moduleMap mid with
      | none =>
        ⟨.sOk, st, some true,
          [.checkAttached, .acquireGuard, .touchModuleState, .releaseGuard]⟩
      | some md =>
        if !(st.firstJitCompilationAppDomains.contains md.appDomainId) then
          ⟨.sOk, st, some false,
            [.checkAttached, .acquireGuard, .touchModuleState, .touchAppDomainState,
             .releaseGuard]⟩
        else
          ⟨.sOk, st, some true,
            [.checkAttached, .acquireGuard, .touchModuleState, .touchAppDomainState,
             .releaseGuard]⟩

/-- Embedding of the entry guards of CorProfiler::ModuleLoadFinished
(lines 539-564): a failed load status returns at once, then the
attached check, the cache guard, and the double check of the flag and
the rejit handler; the remainder of the handler (module inspection,
corlib bookkeeping, integration scan) is abstracted as the continuation
k, over which the stated properties quantify. -/
def moduleLoadFinished (st : ProfilerState) (hrFailed : Bool)
    (k : ProfilerState → ProfilerState × List Action) : EntryOut Unit :=
  if hrFailed then ⟨.sOk, st, (), []⟩
  else if !st.isAttached then ⟨.sOk, st, (), [.checkAttached]⟩
  else if !st.isAttached || st.rejit.isNone then
    ⟨.sOk, st, (), [.checkAttached, .acquireGuard, .checkAttached, .releaseGuard]⟩
  else
    let r := k st
    ⟨.sOk, r.1, (),
      [.checkAttached, .acquireGuard, .checkAttached] ++ r.2 ++ [.releaseGuard]⟩

/-- Embedding of CorProfiler::AssemblyLoadFinished (lines 247-325): a
failed load status returns at once; otherwise the cache guard is taken
and the attached flag checked, the only check of this entry point,
coming after the guard; the remainder of the handler (assembly
inspection, instrumentation-assembly bookkeeping, reference
redirection) is abstracted as the continuation ka, over which the
stated properties quantify. -/
def assemblyLoadFinished (st : ProfilerState) (hrFailed : Bool)
    (ka : ProfilerState → ProfilerState × List Action) : EntryOut Unit :=
  if hrFailed then ⟨.sOk, st, (), []⟩
  else if !st.isAttached then
    ⟨.sOk, st, (), [.acquireGuard, .checkAttached, .releaseGuard]⟩
  else
    let r := ka st
    ⟨.sOk, r.1, (), [.acquireGuard, .checkAttached] ++ r.2 ++ [.releaseGuard]⟩

/-- Embedding of CorProfiler::Shutdown (lines 804-822): without any
check of the attached flag it takes the cache guard, shuts down and
deletes the rejit handler when one is still alive, clears the attached
flag while holding the guard, and returns S_OK. -/
def shutdown (st : ProfilerState) : EntryOut Unit :=
  match st.rejit with
  | some _ =>
    ⟨.sOk, { st with rejit := none, isAttached := false }, (),
      [.acquireGuard, .touchRejitState, .releaseGuard]⟩
  | none =>
    ⟨.sOk, { st with isAttached := false }, (), [.acquireGuard, .releaseGuard]⟩

/-- Embedding of CorProfiler::JITCompilationStarted (lines 851-866,
desktop only) together with the JITCompilationStartedOnNetFramework
body it dispatches to (lines 931 onward): the attached flag (with
is_safe_to_block) is checked on entry, the cache guard is taken and the
flag re-checked, and the Loader-injection body is abstracted as the
continuation kj. -/
def jitCompilationStarted (st : ProfilerState) (isSafeToBlock : Bool)
    (kj : ProfilerState → ProfilerState × List Action) : EntryOut Unit :=
  if st.isAttached && isSafeToBlock then
    if !st.isAttached then
      ⟨.sOk, st, (), [.checkAttached, .acquireGuard, .checkAttached, .releaseGuard]⟩
    else
      let r := kj st
      ⟨.sOk, r.1, (),
        [.checkAttached, .acquireGuard, .checkAttached] ++ r.2 ++ [.releaseGuard]⟩
  else ⟨.sOk, st, (), [.checkAttached]⟩

/-- Embedding of CorProfiler::ReJITCompilationFinished (lines
2266-2278): the attached flag only guards a debug log; no engine state
is read or modified. -/
def reJITCompilationFinished (st : ProfilerState) : EntryOut Unit :=
  ⟨.sOk, st, (), [.checkAttached]⟩

/-- Embedding of CorProfiler::ReJITError (lines 2280-2292): the
attached flag only guards a warning log; no engine state is read or
modified. -/
def reJITError (st : ProfilerState) : EntryOut Unit :=
  ⟨.sOk, st, (), [.checkAttached]⟩

/-- Check discipline the specification asserts: every acquisition of
the cache guard is immediately followed by a re-check of the attached
flag. -/
def recheckAfterGuard : List Action → Bool
  | [] => true
  | .acquireGuard :: rest =>
    (match rest with
     | .checkAttached :: _ => true
     | _ => false) && recheckAfterGuard rest
  | _ :: rest => recheckAfterGuard rest

/-- Whether a trace touches any module, rejit or app-domain state. -/
def touchesEngineState (t : List Action) : Bool :=
  t.any fun a =>
    a == .touchModuleState || a == .touchRejitState || a == .touchAppDomainState

/-! ## Theorems -/

/-- Helper: a find? over an association list from which every binding of
the key has been filtered out finds nothing. -/
theorem find?_filter_ne {α : Type} (l : List (Nat × α)) (m : Nat) :
    (l.filter (fun p => p.1 != m)).find? (fun p => p.1 == m) = none := by
  induction l with
  | nil => rfl
  | cons a l ih =>
    by_cases h : a.1 = m
    · simp [List.filter_cons, h, ih]
    · simp [List.filter_cons, List.find?_cons, h, ih]

/-- Helper: findModuleMetadata after filtering out a module id. -/
theorem findModuleMetadata_filter_ne (l : List (Nat × ModuleMeta)) (m : Nat) :
    findModuleMetadata (l.filter (fun p => p.1 != m)) m = none := by
  unfold findModuleMetadata
  rw [find?_filter_ne]

/-- C10: every environment-variable configuration predicate caches its
boolean result in the function-local static cell on the first call, and
any later call returns that same cached value with the cell unchanged,
whatever the environment value has become in the meantime; this is
stated for the ToBooleanWithDefault, CheckIfTrue and CheckIfFalse cores
and for the AreTracesEnabled, EnableInlining and IsNGENEnabled
predicates built from them. -/
theorem spec_c10_env_predicate_cached (tc fc : String → Bool) (dflt : Bool)
    (e1 e2 : String) :
    ((toBooleanWithDefault tc fc dflt e2 (toBooleanWithDefault tc fc dflt e1 (-1)).2).1
        = (toBooleanWithDefault tc fc dflt e1 (-1)).1
      ∧ (toBooleanWithDefault tc fc dflt e2 (toBooleanWithDefault tc fc dflt e1 (-1)).2).2
        = (toBooleanWithDefault tc fc dflt e1 (-1)).2)
    ∧ ((checkIfTrue tc e2 (checkIfTrue tc e1 (-1)).2).1 = (checkIfTrue tc e1 (-1)).1
      ∧ (checkIfTrue tc e2 (checkIfTrue tc e1 (-1)).2).2 = (checkIfTrue tc e1 (-1)).2)
    ∧ ((checkIfFalse fc e2 (checkIfFalse fc e1 (-1)).2).1 = (checkIfFalse fc e1 (-1)).1
      ∧ (checkIfFalse fc e2 (checkIfFalse fc e1 (-1)).2).2 = (checkIfFalse fc e1 (-1)).2)
    ∧ (AreTracesEnabled tc fc e2 (AreTracesEnabled tc fc e1 (-1)).2).1
        = (AreTracesEnabled tc fc e1 (-1)).1
    ∧ (EnableInlining tc fc e2 (EnableInlining tc fc e1 (-1)).2).1
        = (EnableInlining tc fc e1 (-1)).1
    ∧ (IsNGENEnabled tc fc e2 (IsNGENEnabled tc fc e1 (-1)).2).1
        = (IsNGENEnabled tc fc e1 (-1)).1 := by
  have core : ∀ d : Bool,
      ((toBooleanWithDefault tc fc d e2 (toBooleanWithDefault tc fc d e1 (-1)).2).1
        = (toBooleanWithDefault tc fc d e1 (-1)).1)
      ∧ ((toBooleanWithDefault tc fc d e2 (toBooleanWithDefault tc fc d e1 (-1)).2).2
        = (toBooleanWithDefault tc fc d e1 (-1)).2) := by
    intro d
    unfold toBooleanWithDefault
    split_ifs <;> simp_all
  refine ⟨core dflt, ?_, ?_, (core true).1, (core true).1, (core false).1⟩
  · unfold checkIfTrue
    split_ifs <;> simp_all
  · unfold checkIfFalse
    split_ifs <;> simp_all

/-- C8: while the profiler is attached and the rejit handler alive, the
inlining-query callback always writes an answer, leaves the state
untouched and returns S_OK, and it answers "do not inline" exactly when
the resolved callee (module, method token) pair is registered for
rewrite in the rejit handler; every other case, including a failed
GetFunctionInfo, answers "inline". -/
theorem spec_c8_jit_inlining (st : ProfilerState) (rh : RejitHandlerState)
    (fi : Option (Nat × Nat)) (h1 : st.isAttached = true) (h2 : st.rejit = some rh) :
    (jitInlining st fi).hr = .sOk
    ∧ (jitInlining st fi).state = st
    ∧ (jitInlining st fi).value.isSome = true
    ∧ ((jitInlining st fi).value = some false ↔
        ∃ mid tok, fi = some (mid, tok) ∧ rejitContainsMethod rh mid tok = true) := by
  cases fi with
  | none => simp [jitInlining, h1, h2]
  | some p =>
    obtain ⟨mid, tok⟩ := p
    by_cases h : rejitContainsMethod rh mid tok
    · refine ⟨by simp [jitInlining, h1, h2, h], by simp [jitInlining, h1, h2, h],
        by simp [jitInlining, h1, h2, h], ?_⟩
      constructor
      · intro _
        exact ⟨mid, tok, rfl, h⟩
      · intro _
        simp [jitInlining, h1, h2, h]
    · refine ⟨by simp [jitInlining, h1, h2, h], by simp [jitInlining, h1, h2, h],
        by simp [jitInlining, h1, h2, h], ?_⟩
      constructor
      · intro hv
        simp [jitInlining, h1, h2, h] at hv
      · rintro ⟨mid', tok', heq, hc⟩
        injection heq with heq'
        injection heq' with hm ht
        subst hm
        subst ht
        exact absurd hc (by simp [h])

/-- Witness for spec_c8_jit_inlining at a concrete attached state with
one registered method. -/
theorem spec_c8_jit_inlining_witness :
    (jitInlining ⟨true, [], some ⟨[(3, [7])]⟩, [], []⟩ (some (3, 7))).value
      = some false := by
  exact (spec_c8_jit_inlining ⟨true, [], some ⟨[(3, [7])]⟩, [], []⟩ ⟨[(3, [7])]⟩
    (some (3, 7)) rfl rfl).2.2.2.mpr ⟨3, 7, rfl, by decide⟩

/-- C7: while attached, the recompilation-parameters callback forwards
the grant to the rejit handler exactly when the metadata record of the
module is still in the cache, returns S_FALSE without forwarding when
the record is gone, and the module-unload notification removes the
metadata record from the cache and, when the record was present, also
removes the per-module state from the rejit handler. -/
theorem spec_c7_grant_vs_unload (st : ProfilerState) (m t : Nat)
    (hA : st.isAttached = true) :
    ((getReJITParameters st m t).value.isSome
        = (findModuleMetadata st.moduleMap m).isSome)
    ∧ (findModuleMetadata st.moduleMap m = none →
        (getReJITParameters st m t).hr = .sFalse
        ∧ (getReJITParameters st m t).value = none)
    ∧ findModuleMetadata (moduleUnloadStarted st m).state.moduleMap m = none
    ∧ ((findModuleMetadata st.moduleMap m).isSome →
        ∀ rh, (moduleUnloadStarted st m).state.rejit = some rh →
          rh.modules.find? (fun p => p.1 == m) = none) := by
  cases hf : findModuleMetadata st.moduleMap m with
  | none =>
    refine ⟨?_, ?_, ?_, ?_⟩ <;> simp [getReJITParameters, moduleUnloadStarted, hA, hf]
  | some md =>
    refine ⟨?_, ?_, ?_, ?_⟩
    · simp [getReJITParameters, hA, hf]
    · simp [hf]
    · simp [moduleUnloadStarted, hA, hf, findModuleMetadata_filter_ne]
    · intro _ rh hrh
      simp only [moduleUnloadStarted, hA, Bool.not_true, Bool.false_eq_true, if_false,
        hf] at hrh
      cases hr : st.rejit with
      | none => simp [hr] at hrh
      | some rh0 =>
        simp only [hr] at hrh
        have hrw : rh = ⟨rh0.modules.filter (fun p => p.1 != m)⟩ :=
          (Option.some.inj hrh).symm
        rw [hrw]
        exact find?_filter_ne rh0.modules m

/-- Witness for spec_c7_grant_vs_unload: unloading the one module of a
concrete attached state empties both the cache and the rejit state. -/
theorem spec_c7_grant_vs_unload_witness :
    findModuleMetadata
      (moduleUnloadStarted ⟨true, [(5, ⟨1⟩)], some ⟨[(5, [10])]⟩, [], []⟩ 5).state.moduleMap
      5 = none := by
  exact (spec_c7_grant_vs_unload ⟨true, [(5, ⟨1⟩)], some ⟨[(5, [10])]⟩, [], []⟩ 5 10
    rfl).2.2.1

/-- C4: when none of the three expected wrapper method names
(OnMethodBegin, OnMethodEnd, OnAsyncMethodEnd) resolves on the wrapper
type, the rewriter callback aborts with S_FALSE, commits no body and
never reaches Export; when the guards before the probe pass, the abort
reason is precisely the failed wrapper-method probe. -/
theorem spec_c4_wrapper_method_probe (env : RewriteEnv) (caller : CallerInfo)
    (h1 : env.hookOnMethodBegin = false) (h2 : env.hookOnMethodEnd = false)
    (h3 : env.hookOnAsyncMethodEnd = false) :
    (callTargetRewriterCallback env caller).hr = .sFalse
    ∧ (callTargetRewriterCallback env caller).committed = none
    ∧ (callTargetRewriterCallback env caller).exportAttempted = false
    ∧ (env.managedProfilerModuleLoaded = true →
        env.instrumentationMetadataFound = true → env.wrapperTypeFound = true →
        (callTargetRewriterCallback env caller).abortReason
          = some .noWrapperMethodFound) := by
  cases hm : env.managedProfilerModuleLoaded <;>
    cases hi : env.instrumentationMetadataFound <;>
    cases hw : env.wrapperTypeFound <;>
    simp [callTargetRewriterCallback, abortOutcome, h1, h2, h3, hm, hi, hw]

/-- Witness for spec_c4_wrapper_method_probe at a concrete environment
whose wrapper type resolves but offers none of the three hooks. -/
theorem spec_c4_wrapper_method_probe_witness :
    (callTargetRewriterCallback
      ⟨true, true, true, false, false, false, true, true, true, true, 9, 1, 2, 0, 1, 2, 3⟩
      ⟨true, true, ⟨0, false, none, false⟩, [], [.ret], []⟩).abortReason
      = some .noWrapperMethodFound := by
  exact (spec_c4_wrapper_method_probe
    ⟨true, true, true, false, false, false, true, true, true, true, 9, 1, 2, 0, 1, 2, 3⟩
    ⟨true, true, ⟨0, false, none, false⟩, [], [.ret], []⟩ rfl rfl rfl).2.2.2 rfl rfl rfl

/-- Helper: success of the receiver load excludes both unsupported
receiver shapes. -/
theorem loadReceiver_ok_shape (caller : CallerInfo) (recv : List Instr)
    (h : loadReceiver caller = .ok recv) :
    ¬(caller.isStatic = true ∧ caller.type.valueType = true)
    ∧ ¬(caller.isStatic = false ∧ caller.type.valueType = true
        ∧ caller.type.typeSpec = none ∧ caller.type.isGeneric = true) := by
  unfold loadReceiver at h
  cases hs : caller.isStatic <;> cases hv : caller.type.valueType <;>
    simp [hs, hv] at h ⊢
  cases hts : caller.type.typeSpec with
  | none =>
    cases hg : caller.type.isGeneric with
    | false => simp [hg]
    | true => simp [hts, hg] at h
  | some ts => simp [hts]

/-- Helper: success of the fast-path loop means no argument it visited
is by-reference. -/
theorem loadArgumentsFastAux_ok_noByRef (isStatic : Bool) :
    ∀ i args l, loadArgumentsFastAux isStatic i args = .ok l →
      ∀ a ∈ args, a.byRef = false := by
  intro i args
  induction args generalizing i with
  | nil => simp
  | cons a rest ih =>
    intro l h b hb
    rw [List.mem_cons] at hb
    by_cases hbr : a.byRef
    · simp [loadArgumentsFastAux, hbr] at h
    · rcases hb with hb | hb
      · subst hb
        exact Bool.not_eq_true _ ▸ hbr
      · cases hrest : loadArgumentsFastAux isStatic (i + 1) rest with
        | error e =>
          simp [loadArgumentsFastAux, hbr, hrest, Bind.bind, Except.bind] at h
        | ok l' => exact ih (i + 1) l' hrest b hb

/-- Helper: success of the slow-path loop means no argument it visited
is by-reference. -/
theorem loadArgumentsSlowAux_ok_noByRef (isStatic : Bool) :
    ∀ i args l, loadArgumentsSlowAux isStatic i args = .ok l →
      ∀ a ∈ args, a.byRef = false := by
  intro i args
  induction args generalizing i with
  | nil => simp
  | cons a rest ih =>
    intro l h b hb
    rw [List.mem_cons] at hb
    by_cases hbr : a.byRef
    · simp [loadArgumentsSlowAux, hbr] at h
    · rcases hb with hb | hb
      · subst hb
        exact Bool.not_eq_true _ ▸ hbr
      · by_cases hbx : a.boxed
        · cases htok : a.typeTok with
          | none =>
            simp [loadArgumentsSlowAux, hbr, hbx, htok, Bind.bind, Except.bind] at h
          | some tok =>
            cases hrest : loadArgumentsSlowAux isStatic (i + 1) rest with
            | error e =>
              simp [loadArgumentsSlowAux, hbr, hbx, htok, hrest, Bind.bind,
                Except.bind] at h
            | ok l' => exact ih (i + 1) l' hrest b hb
        · cases hrest : loadArgumentsSlowAux isStatic (i + 1) rest with
          | error e =>
            simp [loadArgumentsSlowAux, hbr, hbx, hrest, Bind.bind, Except.bind] at h
          | ok l' => exact ih (i + 1) l' hrest b hb

/-- Helper: success of the argument-marshaling step means no declared
argument is by-reference. -/
theorem loadMethodArguments_ok_noByRef (fc : Nat) (isStatic : Bool) (otr : Nat)
    (args : List ArgInfo) (l : List Instr)
    (h : loadMethodArguments fc isStatic otr args = .ok l) :
    ∀ a ∈ args, a.byRef = false := by
  unfold loadMethodArguments at h
  by_cases hlt : args.length < fc
  · simp only [hlt, if_true] at h
    exact loadArgumentsFastAux_ok_noByRef isStatic 0 args l h
  · simp only [hlt, if_false] at h
    cases hs : loadArgumentsSlowAux isStatic 0 args with
    | error e => simp [hs, Bind.bind, Except.bind] at h
    | ok l' => exact loadArgumentsSlowAux_ok_noByRef isStatic 0 args l' hs

/-- Inversion of the rewriter callback: whenever Export was reached,
both the receiver load and the argument marshaling succeeded. -/
theorem rewriterCallback_export_inversion (env : RewriteEnv) (caller : CallerInfo)
    (h : (callTargetRewriterCallback env caller).exportAttempted = true) :
    ∃ recv argInstrs, loadReceiver caller = .ok recv
      ∧ loadMethodArguments env.fastpathCount caller.isStatic env.objectTypeRef
          caller.args = .ok argInstrs := by
  unfold callTargetRewriterCallback at h
  repeat' split at h
  all_goals first
    | exact ⟨_, _, by assumption, by assumption⟩
    | simp [abortOutcome] at h

/-- Inversion of the rewriter callback: an outcome that never reached
Export is one of the S_FALSE aborts, with no committed body. -/
theorem rewriterCallback_no_export_abort (env : RewriteEnv) (caller : CallerInfo)
    (h : (callTargetRewriterCallback env caller).exportAttempted = false) :
    (callTargetRewriterCallback env caller).hr = .sFalse
    ∧ (callTargetRewriterCallback env caller).committed = none := by
  unfold callTargetRewriterCallback at h ⊢
  repeat' split
  all_goals simp_all [abortOutcome]

/-- C3: a static method on a value type, a method with any by-reference
parameter, and an instance method on a generic value type without a
concrete type spec each make the rewriter abort non-fatally: the
callback returns the S_FALSE failure status, commits no body, and never
reaches ILRewriter::Export, leaving the original method body
unmodified. -/
theorem spec_c3_unsupported_shapes (env : RewriteEnv) (caller : CallerInfo)
    (h : (caller.isStatic = true ∧ caller.type.valueType = true)
      ∨ (∃ a ∈ caller.args, a.byRef = true)
      ∨ (caller.isStatic = false ∧ caller.type.valueType = true
          ∧ caller.type.typeSpec = none ∧ caller.type.isGeneric = true)) :
    (callTargetRewriterCallback env caller).hr = .sFalse
    ∧ (callTargetRewriterCallback env caller).committed = none
    ∧ (callTargetRewriterCallback env caller).exportAttempted = false := by
  cases hE : (callTargetRewriterCallback env caller).exportAttempted with
  | false =>
    obtain ⟨h1, h2⟩ := rewriterCallback_no_export_abort env caller hE
    exact ⟨h1, h2, rfl⟩
  | true =>
    exfalso
    obtain ⟨recv, argInstrs, hrecv, hargs⟩ :=
      rewriterCallback_export_inversion env caller hE
    obtain ⟨hs1, hs2⟩ := loadReceiver_ok_shape caller recv hrecv
    rcases h with h | h | h
    · exact hs1 h
    · obtain ⟨a, ha, hbr⟩ := h
      have := loadMethodArguments_ok_noByRef env.fastpathCount caller.isStatic
        env.objectTypeRef caller.args argInstrs hargs a ha
      simp [hbr] at this
    · exact hs2 h

/-- Witness for spec_c3_unsupported_shapes at a concrete static method
of a value type. -/
theorem spec_c3_unsupported_shapes_witness :
    (callTargetRewriterCallback
      ⟨true, true, true, true, true, true, true, true, true, true, 9, 1, 2, 0, 1, 2, 3⟩
      ⟨true, true, ⟨4, true, none, false⟩, [], [.ret], []⟩).committed = none := by
  exact (spec_c3_unsupported_shapes
    ⟨true, true, true, true, true, true, true, true, true, true, 9, 1, 2, 0, 1, 2, 3⟩
    ⟨true, true, ⟨4, true, none, false⟩, [], [.ret], []⟩ (Or.inl ⟨rfl, rfl⟩)).2.1

/-- Helper: unfolding equation of changeRets on a list of length at
least two. -/
theorem changeRets_cons_cons (v : Bool) (r : Nat) (i j : Instr) (rest : List Instr) :
    changeRets v r (i :: j :: rest) = retReplacement v r i ++ changeRets v r (j :: rest) := by
  rfl

/-- Helper: on a list followed by a nonempty tail, the return-rewriting
loop acts on the prefix as the per-instruction replacement. -/
theorem changeRets_bind (v : Bool) (r : Nat) :
    ∀ body rest : List Instr, rest ≠ [] →
      changeRets v r (body ++ rest)
        = body.flatMap (retReplacement v r) ++ changeRets v r rest := by
  intro body
  induction body with
  | nil => intro rest _; simp
  | cons i body ih =>
    intro rest h
    obtain ⟨j, l, hjl⟩ : ∃ j l, body ++ rest = j :: l := by
      cases hb : body ++ rest with
      | nil => exact absurd (List.append_eq_nil.mp hb).2 h
      | cons j l => exact ⟨j, l, rfl⟩
    have h1 : (i :: body) ++ rest = i :: j :: l := by rw [List.cons_append, hjl]
    rw [h1, changeRets_cons_cons, ← hjl, ih rest h, List.flatMap_cons, List.append_assoc]

/-- Helper: the replacement of a single instruction never contains a
return instruction. -/
theorem retReplacement_ret_not_mem (v : Bool) (r : Nat) (i : Instr) :
    Instr.ret ∉ retReplacement v r i := by
  unfold retReplacement
  by_cases h : i = Instr.ret
  · subst h; cases v <;> simp
  · simp only [if_neg h, List.mem_singleton]
    exact fun hh => h hh.symm

/-- Helper: the per-instruction replacement keeps a return-free list
unchanged. -/
theorem flatMap_retReplacement_of_not_mem (v : Bool) (r : Nat) (l : List Instr)
    (h : Instr.ret ∉ l) : l.flatMap (retReplacement v r) = l := by
  induction l with
  | nil => rfl
  | cons i l ih =>
    have hi : i ≠ Instr.ret := fun he => h (he ▸ List.mem_cons_self i l)
    rw [List.flatMap_cons, show retReplacement v r i = [i] from by simp [retReplacement, hi],
      ih (fun hm => h (List.mem_cons_of_mem i hm)), List.singleton_append]

/-- Helper: the image of the per-instruction replacement contains no
return instruction at all. -/
theorem ret_not_mem_flatMap (v : Bool) (r : Nat) (l : List Instr) :
    Instr.ret ∉ l.flatMap (retReplacement v r) := by
  intro h
  rw [List.mem_flatMap] at h
  obtain ⟨a, _, hmem⟩ := h
  exact retReplacement_ret_not_mem v r a hmem

/-- Helper: the return-rewriting loop leaves a return-free list followed
by the appended return instruction unchanged. -/
theorem changeRets_fixed_of_not_mem (v : Bool) (r : Nat) (l : List Instr)
    (h : Instr.ret ∉ l) :
    changeRets v r (l ++ [Instr.ret]) = l ++ [Instr.ret] := by
  rw [changeRets_bind v r l [Instr.ret] (by simp),
    flatMap_retReplacement_of_not_mem v r l h]
  rfl

/-- Helper: getLast? of a list ending in a singleton. -/
theorem getLast?_append_singleton (l : List Instr) (a : Instr) :
    (l ++ [a]).getLast? = some a := by
  exact List.getLast?_concat l

/-- Helper: a successful receiver load emits no return instruction. -/
theorem loadReceiver_ok_no_ret (caller : CallerInfo) (recv : List Instr)
    (h : loadReceiver caller = .ok recv) : Instr.ret ∉ recv := by
  unfold loadReceiver at h
  repeat' split at h
  all_goals try simp_all
  all_goals (subst h; simp)

/-- Helper: the fast-path loop emits no return instruction. -/
theorem loadArgumentsFastAux_ok_no_ret (isStatic : Bool) :
    ∀ i args l, loadArgumentsFastAux isStatic i args = .ok l → Instr.ret ∉ l := by
  intro i args
  induction args generalizing i with
  | nil =>
    intro l h
    simp only [loadArgumentsFastAux] at h
    cases h
    simp
  | cons a rest ih =>
    intro l h
    by_cases hbr : a.byRef
    · simp [loadArgumentsFastAux, hbr] at h
    · cases hrest : loadArgumentsFastAux isStatic (i + 1) rest with
      | error e =>
        simp [loadArgumentsFastAux, hbr, hrest, Bind.bind, Except.bind] at h
      | ok l' =>
        simp [loadArgumentsFastAux, hbr, hrest, Bind.bind, Except.bind] at h
        subst h
        have hl'' : Instr.ret ∉ l' := ih (i + 1) l' hrest
        simp [List.mem_cons, hl'']

/-- Helper: the slow-path loop emits no return instruction. -/
theorem loadArgumentsSlowAux_ok_no_ret (isStatic : Bool) :
    ∀ i args l, loadArgumentsSlowAux isStatic i args = .ok l → Instr.ret ∉ l := by
  intro i args
  induction args generalizing i with
  | nil =>
    intro l h
    simp only [loadArgumentsSlowAux] at h
    cases h
    simp
  | cons a rest ih =>
    intro l h
    by_cases hbr : a.byRef
    · simp [loadArgumentsSlowAux, hbr] at h
    · by_cases hbx : a.boxed
      · cases htok : a.typeTok with
        | none => simp [loadArgumentsSlowAux, hbr, hbx, htok, Bind.bind, Except.bind] at h
        | some tok =>
          cases hrest : loadArgumentsSlowAux isStatic (i + 1) rest with
          | error e =>
            simp [loadArgumentsSlowAux, hbr, hbx, htok, hrest, Bind.bind,
              Except.bind] at h
          | ok l' =>
            simp [loadArgumentsSlowAux, hbr, hbx, htok, hrest, Bind.bind,
              Except.bind] at h
            subst h
            have hl'' : Instr.ret ∉ l' := ih (i + 1) l' hrest
            simp [List.mem_append, List.mem_cons, hl'']
      · cases hrest : loadArgumentsSlowAux isStatic (i + 1) rest with
        | error e =>
          simp [loadArgumentsSlowAux, hbr, hbx, hrest, Bind.bind, Except.bind] at h
        | ok l' =>
          simp [loadArgumentsSlowAux, hbr, hbx, hrest, Bind.bind, Except.bind] at h
          subst h
          have hl'' : Instr.ret ∉ l' := ih (i + 1) l' hrest
          simp [List.mem_append, List.mem_cons, hl'']

/-- Helper: successful argument marshaling emits no return
instruction. -/
theorem loadMethodArguments_ok_no_ret (fc : Nat) (isStatic : Bool) (otr : Nat)
    (args : List ArgInfo) (l : List Instr)
    (h : loadMethodArguments fc isStatic otr args = .ok l) : Instr.ret ∉ l := by
  unfold loadMethodArguments at h
  by_cases hlt : args.length < fc
  · simp only [hlt, if_true] at h
    exact loadArgumentsFastAux_ok_no_ret isStatic 0 args l h
  · simp only [hlt, if_false] at h
    cases hs : loadArgumentsSlowAux isStatic 0 args with
    | error e => simp [hs, Bind.bind, Except.bind] at h
    | ok l' =>
      simp only [hs, Bind.bind, Except.bind, Except.ok.injEq] at h
      subst h
      intro hm
      rcases List.mem_cons.mp hm with hm | hm
      · cases hm
      · exact loadArgumentsSlowAux_ok_no_ret isStatic 0 args l' hs hm

/-- Helper: the begin-method block contains no return instruction when
its receiver and argument loads contain none. -/
theorem beginPart_no_ret (env : RewriteEnv) (recv argInstrs : List Instr)
    (h1 : Instr.ret ∉ recv) (h2 : Instr.ret ∉ argInstrs) :
    Instr.ret ∉ beginPartInstrs env recv argInstrs := by
  simp [beginPartInstrs, List.mem_append, h1, h2]

/-- Helper: the end-method block contains no return instruction when
its receiver load contains none. -/
theorem endPart_no_ret (env : RewriteEnv) (isVoid : Bool) (recv : List Instr)
    (h1 : Instr.ret ∉ recv) :
    Instr.ret ∉ endPartInstrs env isVoid recv := by
  cases isVoid <;> simp [endPartInstrs, List.mem_append, h1]

/-- Inversion of the rewriter callback on success: a committed body is
exactly the assembled stream run through the return-rewriting loop,
with the four new exception clauses appended to the copied table. -/
theorem rewriterCallback_committed_inversion (env : RewriteEnv) (caller : CallerInfo)
    (rb : RewrittenBody)
    (h : (callTargetRewriterCallback env caller).committed = some rb) :
    ∃ recv argInstrs, loadReceiver caller = .ok recv
      ∧ loadMethodArguments env.fastpathCount caller.isStatic env.objectTypeRef
          caller.args = .ok argInstrs
      ∧ rb.stream = changeRets caller.isVoid env.returnValueIndex
          (beginPartInstrs env recv argInstrs ++ caller.body ++ excPartInstrs env
            ++ endPartInstrs env caller.isVoid recv
            ++ epiloguePartInstrs env caller.isVoid)
      ∧ rb.eh = caller.ehClauses ++
          [beginMethodExClause env.exceptionTypeRef,
           endMethodExClause env.exceptionTypeRef,
           exClause env.exceptionTypeRef, finallyClause] := by
  unfold callTargetRewriterCallback at h
  repeat' split at h
  all_goals try simp only [abortOutcome] at h
  all_goals try exact Option.noConfusion h
  rename_i xB recvB hBA hexp
  have hrecvBA := Except.ok.inj hBA
  have h' := Option.some.inj h
  subst h'
  refine ⟨_, _, by assumption, by assumption, ?_, rfl⟩
  rw [hrecvBA]

/-- Helper: the return-rewriting loop on the assembled stream rewrites
exactly the original-body returns, because the injected blocks around
the body are return-free and the appended return is last. -/
theorem changeRets_assembled (v : Bool) (r : Nat) (A B X E P' : List Instr)
    (hA : Instr.ret ∉ A) (hX : Instr.ret ∉ X) (hE : Instr.ret ∉ E)
    (hP' : Instr.ret ∉ P') :
    changeRets v r (A ++ B ++ X ++ E ++ (P' ++ [Instr.ret]))
      = A ++ B.flatMap (retReplacement v r) ++ X ++ E ++ (P' ++ [Instr.ret]) := by
  have hT : Instr.ret ∉ X ++ E ++ P' := by
    intro hm
    rcases List.mem_append.mp hm with hm | hm
    · rcases List.mem_append.mp hm with hm | hm
      · exact hX hm
      · exact hE hm
    · exact hP' hm
  have h1 : A ++ B ++ X ++ E ++ (P' ++ [Instr.ret])
      = A ++ (B ++ ((X ++ E ++ P') ++ [Instr.ret])) := by
    simp [List.append_assoc]
  rw [h1, changeRets_bind v r A (B ++ ((X ++ E ++ P') ++ [Instr.ret])) (by simp),
    changeRets_bind v r B ((X ++ E ++ P') ++ [Instr.ret]) (by simp),
    flatMap_retReplacement_of_not_mem v r A hA,
    changeRets_fixed_of_not_mem v r (X ++ E ++ P') hT]
  simp [List.append_assoc]

/-- Helper: the rewritten assembled stream contains exactly one return
instruction, the appended one. -/
theorem count_ret_assembled (v : Bool) (r : Nat) (A B X E P' : List Instr)
    (hA : Instr.ret ∉ A) (hX : Instr.ret ∉ X) (hE : Instr.ret ∉ E)
    (hP' : Instr.ret ∉ P') :
    (A ++ B.flatMap (retReplacement v r) ++ X ++ E ++ (P' ++ [Instr.ret])).count
      Instr.ret = 1 := by
  simp only [List.count_append, List.count_eq_zero.mpr hA,
    List.count_eq_zero.mpr hX, List.count_eq_zero.mpr hE,
    List.count_eq_zero.mpr hP',
    List.count_eq_zero.mpr (ret_not_mem_flatMap v r B)]
  simp

/-- C1: in a successful rewrite the committed stream consists of the
injected begin-method block, the original body in which every return
instruction has been replaced by a store of the stacked value into the
return-value local (non-void methods) followed by a LEAVE_S targeting
the shared epilogue, the exception and finally blocks, and the epilogue
that reloads the return-value local (non-void methods) before the single
return instruction of the whole stream, which is its last
instruction. -/
theorem spec_c1_return_rewrite (env : RewriteEnv) (caller : CallerInfo)
    (rb : RewrittenBody)
    (h : (callTargetRewriterCallback env caller).committed = some rb) :
    (∃ recv argInstrs, loadReceiver caller = .ok recv
      ∧ loadMethodArguments env.fastpathCount caller.isStatic env.objectTypeRef
          caller.args = .ok argInstrs
      ∧ rb.stream = beginPartInstrs env recv argInstrs
          ++ caller.body.flatMap (retReplacement caller.isVoid env.returnValueIndex)
          ++ excPartInstrs env ++ endPartInstrs env caller.isVoid recv
          ++ epiloguePartInstrs env caller.isVoid)
    ∧ rb.stream.count Instr.ret = 1
    ∧ rb.stream.getLast? = some Instr.ret
    ∧ (caller.isVoid = false →
        ∃ pre, rb.stream = pre ++ [Instr.loadLocal env.returnValueIndex, Instr.ret]) := by
  obtain ⟨recv, argInstrs, hrecv, hargs, hstream, _⟩ :=
    rewriterCallback_committed_inversion env caller rb h
  have hANR : Instr.ret ∉ beginPartInstrs env recv argInstrs :=
    beginPart_no_ret env recv argInstrs (loadReceiver_ok_no_ret caller recv hrecv)
      (loadMethodArguments_ok_no_ret _ _ _ _ _ hargs)
  have hXNR : Instr.ret ∉ excPartInstrs env := by simp [excPartInstrs]
  have hENR : Instr.ret ∉ endPartInstrs env caller.isVoid recv :=
    endPart_no_ret env caller.isVoid recv (loadReceiver_ok_no_ret caller recv hrecv)
  have hP'NR : Instr.ret ∉
      (if caller.isVoid then [] else [Instr.loadLocal env.returnValueIndex]) := by
    cases caller.isVoid <;> simp
  have hepi : epiloguePartInstrs env caller.isVoid
      = (if caller.isVoid then [] else [Instr.loadLocal env.returnValueIndex])
        ++ [Instr.ret] := rfl
  rw [hepi] at hstream
  rw [changeRets_assembled caller.isVoid env.returnValueIndex _ _ _ _ _
    hANR hXNR hENR hP'NR] at hstream
  refine ⟨⟨recv, argInstrs, hrecv, hargs, by rw [hstream, hepi]⟩, ?_, ?_, ?_⟩
  · rw [hstream]
    exact count_ret_assembled caller.isVoid env.returnValueIndex _ _ _ _ _
      hANR hXNR hENR hP'NR
  · have hstream' : rb.stream
        = (beginPartInstrs env recv argInstrs
            ++ caller.body.flatMap (retReplacement caller.isVoid env.returnValueIndex)
            ++ excPartInstrs env ++ endPartInstrs env caller.isVoid recv
            ++ (if caller.isVoid then [] else [Instr.loadLocal env.returnValueIndex]))
          ++ [Instr.ret] := by
      rw [hstream]
      simp [List.append_assoc]
    rw [hstream']
    exact getLast?_append_singleton _ _
  · intro hv
    refine ⟨beginPartInstrs env recv argInstrs
      ++ caller.body.flatMap (retReplacement caller.isVoid env.returnValueIndex)
      ++ excPartInstrs env ++ endPartInstrs env caller.isVoid recv, ?_⟩
    rw [hstream, hv]
    simp [List.append_assoc]

/-- C2: the committed exception-handling table is the original table
followed by exactly the four new clauses, in the order begin-hook guard
catch, end-hook guard catch, outer body catch, finally; the table grows
by exactly four entries and the leading entries are the original clauses
unchanged. -/
theorem spec_c2_eh_table (env : RewriteEnv) (caller : CallerInfo) (rb : RewrittenBody)
    (h : (callTargetRewriterCallback env caller).committed = some rb) :
    rb.eh = caller.ehClauses ++
      [beginMethodExClause env.exceptionTypeRef, endMethodExClause env.exceptionTypeRef,
       exClause env.exceptionTypeRef, finallyClause]
    ∧ rb.eh.length = caller.ehClauses.length + 4
    ∧ rb.eh.take caller.ehClauses.length = caller.ehClauses
    ∧ rb.eh.drop caller.ehClauses.length =
      [beginMethodExClause env.exceptionTypeRef, endMethodExClause env.exceptionTypeRef,
       exClause env.exceptionTypeRef, finallyClause] := by
  obtain ⟨recv, argInstrs, _, _, _, heh⟩ :=
    rewriterCallback_committed_inversion env caller rb h
  refine ⟨heh, ?_, ?_, ?_⟩
  · rw [heh, List.length_append]
    rfl
  · rw [heh, List.take_left]
  · rw [heh, List.drop_left]

/-- Concrete successful rewrite used by the witnesses: a static,
non-void method of a reference type with no arguments, a body of one
opcode and one return, and one pre-existing exception clause. -/
def envW : RewriteEnv :=
  ⟨true, true, true, true, false, false, true, true, true, true, 9, 50, 60, 0, 1, 2, 3⟩

/-- Concrete caller for the witnesses. -/
def callerW : CallerInfo :=
  ⟨false, true, ⟨4, false, none, false⟩, [], [Instr.original 7, Instr.ret],
    [⟨0, .orig 0, .orig 1, .orig 1, .orig 2, 99⟩]⟩

/-- Committed body of the concrete successful rewrite. -/
def rbW : RewrittenBody :=
  ((callTargetRewriterCallback envW callerW).committed).getD ⟨[], []⟩

/-- Witness for spec_c1_return_rewrite at the concrete successful
rewrite. -/
theorem spec_c1_return_rewrite_witness :
    rbW.stream.count Instr.ret = 1 ∧ rbW.stream.getLast? = some Instr.ret := by
  have hmain := spec_c1_return_rewrite envW callerW rbW (by decide)
  exact ⟨hmain.2.1, hmain.2.2.1⟩

/-- Witness for spec_c2_eh_table at the concrete successful rewrite. -/
theorem spec_c2_eh_table_witness :
    rbW.eh.length = callerW.ehClauses.length + 4
    ∧ rbW.eh.take callerW.ehClauses.length = callerW.ehClauses := by
  have hmain := spec_c2_eh_table envW callerW rbW (by decide)
  exact ⟨hmain.2.1, hmain.2.2.1⟩

/-- Tokens used by the Box instructions of a stream, in order. -/
def boxTokens (l : List Instr) : List Nat :=
  l.filterMap fun i => match i with | .box t => some t | _ => none

/-- Helper: the fast path emits only LoadArgument instructions. -/
theorem loadArgumentsFastAux_ok_only_loads (isStatic : Bool) :
    ∀ i args l, loadArgumentsFastAux isStatic i args = .ok l →
      ∀ x ∈ l, ∃ k, x = Instr.loadArgument k := by
  intro i args
  induction args generalizing i with
  | nil =>
    intro l h
    simp only [loadArgumentsFastAux] at h
    cases h
    simp
  | cons a rest ih =>
    intro l h
    by_cases hbr : a.byRef
    · simp [loadArgumentsFastAux, hbr] at h
    · cases hrest : loadArgumentsFastAux isStatic (i + 1) rest with
      | error e =>
        simp [loadArgumentsFastAux, hbr, hrest, Bind.bind, Except.bind] at h
      | ok l' =>
        simp [loadArgumentsFastAux, hbr, hrest, Bind.bind, Except.bind] at h
        subst h
        intro x hx
        rcases List.mem_cons.mp hx with hx | hx
        · exact ⟨_, hx⟩
        · exact ih (i + 1) l' hrest x hx

/-- Helper: the slow path boxes exactly the TypeFlagBoxedType arguments,
each through the token of its own declared type. -/
theorem loadArgumentsSlowAux_ok_boxTokens (isStatic : Bool) :
    ∀ i args l, loadArgumentsSlowAux isStatic i args = .ok l →
      boxTokens l = (args.filter (fun a => a.boxed)).map (fun a => a.typeTok.getD 0) := by
  intro i args
  induction args generalizing i with
  | nil =>
    intro l h
    simp only [loadArgumentsSlowAux] at h
    cases h
    rfl
  | cons a rest ih =>
    intro l h
    by_cases hbr : a.byRef
    · simp [loadArgumentsSlowAux, hbr] at h
    · by_cases hbx : a.boxed
      · cases htok : a.typeTok with
        | none => simp [loadArgumentsSlowAux, hbr, hbx, htok, Bind.bind, Except.bind] at h
        | some tok =>
          cases hrest : loadArgumentsSlowAux isStatic (i + 1) rest with
          | error e =>
            simp [loadArgumentsSlowAux, hbr, hbx, htok, hrest, Bind.bind,
              Except.bind] at h
          | ok l' =>
            simp [loadArgumentsSlowAux, hbr, hbx, htok, hrest, Bind.bind,
              Except.bind] at h
            subst h
            simp [boxTokens, List.filterMap_append, List.filter_cons, hbx, htok]
            exact ih (i + 1) l' hrest
      · cases hrest : loadArgumentsSlowAux isStatic (i + 1) rest with
        | error e =>
          simp [loadArgumentsSlowAux, hbr, hbx, hrest, Bind.bind, Except.bind] at h
        | ok l' =>
          simp [loadArgumentsSlowAux, hbr, hbx, hrest, Bind.bind, Except.bind] at h
          subst h
          simp [boxTokens, List.filterMap_append, List.filter_cons, hbx]
          exact ih (i + 1) l' hrest

/-- Helper: with no by-reference argument, a boxed argument whose
declared-type token is mdTokenNil makes the slow path abort with
exactly that reason. -/
theorem loadArgumentsSlowAux_boxNil (isStatic : Bool) :
    ∀ i args, (∀ a ∈ args, a.byRef = false) →
      (∃ a ∈ args, a.boxed = true ∧ a.typeTok = none) →
      loadArgumentsSlowAux isStatic i args = .error .boxTokenNil := by
  intro i args
  induction args generalizing i with
  | nil =>
    intro _ hex
    simp at hex
  | cons a rest ih =>
    intro hbr hex
    have hbra : a.byRef = false := hbr a (List.mem_cons_self a rest)
    have hbrrest : ∀ b ∈ rest, b.byRef = false :=
      fun b hb => hbr b (List.mem_cons_of_mem a hb)
    by_cases hbx : a.boxed
    · cases htok : a.typeTok with
      | none => simp [loadArgumentsSlowAux, hbra, hbx, htok, Bind.bind, Except.bind]
      | some tok =>
        have hexrest : ∃ b ∈ rest, b.boxed = true ∧ b.typeTok = none := by
          obtain ⟨b, hb, hb1, hb2⟩ := hex
          rcases List.mem_cons.mp hb with hb | hb
          · subst hb
            rw [htok] at hb2
            cases hb2
          · exact ⟨b, hb, hb1, hb2⟩
        simp [loadArgumentsSlowAux, hbra, hbx, htok, Bind.bind, Except.bind,
          ih (i + 1) hbrrest hexrest]
    · have hexrest : ∃ b ∈ rest, b.boxed = true ∧ b.typeTok = none := by
        obtain ⟨b, hb, hb1, hb2⟩ := hex
        rcases List.mem_cons.mp hb with hb | hb
        · subst hb
          rw [hb1] at hbx
          cases hbx rfl
        · exact ⟨b, hb, hb1, hb2⟩
      simp [loadArgumentsSlowAux, hbra, hbx, Bind.bind, Except.bind,
        ih (i + 1) hbrrest hexrest]

/-- Helper: a failed argument marshaling makes the whole rewrite abort
with S_FALSE and no committed body. -/
theorem rewriterCallback_args_error (env : RewriteEnv) (caller : CallerInfo)
    (r : AbortReason)
    (h : loadMethodArguments env.fastpathCount caller.isStatic env.objectTypeRef
        caller.args = .error r) :
    (callTargetRewriterCallback env caller).committed = none
    ∧ (callTargetRewriterCallback env caller).hr = .sFalse := by
  unfold callTargetRewriterCallback
  repeat' split
  all_goals simp_all [abortOutcome]

/-- C6: argument marshaling takes the fast path, loading each argument
individually with no array and no boxing, exactly when the argument
count is strictly below FASTPATH_COUNT; at or above the threshold it
creates an object array and boxes every TypeFlagBoxedType argument with
the token of that argument own declared type, and a boxed argument
whose token cannot be obtained aborts the whole rewrite. -/
theorem spec_c6_argument_marshaling (fc : Nat) (isStatic : Bool) (otr : Nat)
    (args : List ArgInfo) :
    (args.length < fc →
      loadMethodArguments fc isStatic otr args = loadArgumentsFastAux isStatic 0 args
      ∧ ∀ l, loadMethodArguments fc isStatic otr args = .ok l →
          (∀ t n, Instr.createArray t n ∉ l) ∧ (∀ t, Instr.box t ∉ l))
    ∧ (fc ≤ args.length →
        (∀ l, loadMethodArguments fc isStatic otr args = .ok l →
          (∃ rest, l = Instr.createArray otr args.length :: rest)
          ∧ boxTokens l
            = (args.filter (fun a => a.boxed)).map (fun a => a.typeTok.getD 0))
        ∧ ((∀ a ∈ args, a.byRef = false) →
            (∃ a ∈ args, a.boxed = true ∧ a.typeTok = none) →
            loadMethodArguments fc isStatic otr args = .error .boxTokenNil))
    ∧ (∀ env caller r,
        loadMethodArguments env.fastpathCount caller.isStatic env.objectTypeRef
          caller.args = .error r →
        (callTargetRewriterCallback env caller).committed = none
        ∧ (callTargetRewriterCallback env caller).hr = .sFalse) := by
  refine ⟨?_, ?_, fun env caller r h => rewriterCallback_args_error env caller r h⟩
  · intro hlt
    refine ⟨by simp [loadMethodArguments, hlt], ?_⟩
    intro l h
    simp only [loadMethodArguments, hlt, if_true] at h
    have honly := loadArgumentsFastAux_ok_only_loads isStatic 0 args l h
    constructor
    · intro t n hmem
      obtain ⟨k, hk⟩ := honly _ hmem
      cases hk
    · intro t hmem
      obtain ⟨k, hk⟩ := honly _ hmem
      cases hk
  · intro hge
    have hnlt : ¬args.length < fc := by omega
    constructor
    · intro l h
      simp only [loadMethodArguments, hnlt, if_false] at h
      cases hs : loadArgumentsSlowAux isStatic 0 args with
      | error e => simp [hs, Bind.bind, Except.bind] at h
      | ok l' =>
        simp only [hs, Bind.bind, Except.bind, Except.ok.injEq] at h
        subst h
        refine ⟨⟨l', rfl⟩, ?_⟩
        simpa [boxTokens] using loadArgumentsSlowAux_ok_boxTokens isStatic 0 args l' hs
    · intro hbr hex
      simp only [loadMethodArguments, hnlt, if_false]
      simp [loadArgumentsSlowAux_boxNil isStatic 0 args hbr hex, Bind.bind, Except.bind]

/-- Witness for spec_c6_argument_marshaling: three arguments against a
threshold of two take the slow path and box the two boxed arguments with
their own declared-type tokens. -/
theorem spec_c6_argument_marshaling_witness :
    boxTokens ((loadMethodArguments 2 true 7
        [⟨false, true, some 11⟩, ⟨false, false, none⟩, ⟨false, true, some 13⟩]).toOption.getD [])
      = [11, 13] := by
  have hmain := (spec_c6_argument_marshaling 2 true 7
    [⟨false, true, some 11⟩, ⟨false, false, none⟩, ⟨false, true, some 13⟩]).2.1
    (by decide)
  exact ((hmain.1 _ (by rfl)).2).trans (by rfl)

/-- Helper: for a nonempty signature_types vector of realistic size, the
size_t subtraction is the plain predecessor. -/
theorem sizeTSubOne_eq (n : Nat) (h1 : 0 < n) (h2 : n < 2 ^ 64) :
    sizeTSubOne n = n - 1 := by
  unfold sizeTSubOne
  have h3 : n + (2 ^ 64 - 1) = (n - 1) + 2 ^ 64 := by omega
  rw [h3, Nat.add_mod_right]
  exact Nat.mod_eq_of_lt (by omega)

/-- Helper: the mismatch loop reports no mismatch exactly when every
remaining argument equals its descriptor entry or that entry is the
wildcard. -/
theorem argumentsMismatchLoop_false_iff (sigTypes : List String) :
    ∀ (args : List String) (i : Nat),
      argumentsMismatchLoop sigTypes args i = false ↔
        ∀ j, j < args.length →
          args.getD j "" = sigTypes.getD (i + j + 1) ""
          ∨ sigTypes.getD (i + j + 1) "" = "_" := by
  intro args
  induction args with
  | nil => intro i; simp [argumentsMismatchLoop]
  | cons a rest ih =>
    intro i
    unfold argumentsMismatchLoop
    by_cases hcond : a ≠ sigTypes.getD (i + 1) "" ∧ sigTypes.getD (i + 1) "" ≠ "_"
    · rw [if_pos hcond]
      constructor
      · intro hfalse
        cases hfalse
      · intro hall
        exfalso
        have h0 := hall 0 (by simp)
        rw [List.getD_cons_zero] at h0
        have hidx : i + 0 + 1 = i + 1 := by omega
        rw [hidx] at h0
        rcases h0 with h0 | h0
        · exact hcond.1 h0
        · exact hcond.2 h0
    · rw [if_neg hcond]
      have hc' : a = sigTypes.getD (i + 1) "" ∨ sigTypes.getD (i + 1) "" = "_" := by
        by_cases ha : a = sigTypes.getD (i + 1) ""
        · exact Or.inl ha
        · refine Or.inr ?_
          by_contra hw
          exact hcond ⟨ha, hw⟩
      rw [ih (i + 1)]
      constructor
      · intro hall j hj
        cases j with
        | zero =>
          rw [List.getD_cons_zero]
          have hidx : i + 0 + 1 = i + 1 := by omega
          rw [hidx]
          exact hc'
        | succ j =>
          rw [List.getD_cons_succ]
          have hidx : i + (j + 1) + 1 = (i + 1) + j + 1 := by omega
          rw [hidx]
          rw [List.length_cons] at hj
          exact hall j (by omega)
      · intro hall j hj
        have h1 := hall (j + 1) (by rw [List.length_cons]; omega)
        rw [List.getD_cons_succ] at h1
        have hidx : i + (j + 1) + 1 = (i + 1) + j + 1 := by omega
        rw [hidx] at h1
        exact h1

/-- Refinement: the count check and mismatch loop of the candidate loop
coincide with the specification reading of method matching (argument
count equal, each argument equal or wildcard). -/
theorem code_match_iff_spec (sigTypes args : List String)
    (h1 : 0 < sigTypes.length) (h2 : sigTypes.length < 2 ^ 64) :
    ((args.length = sizeTSubOne sigTypes.length)
        ∧ argumentsMismatchLoop sigTypes args 0 = false)
      ↔ specArgumentMatchesB sigTypes args = true := by
  rw [sizeTSubOne_eq sigTypes.length h1 h2]
  unfold specArgumentMatchesB
  rw [Bool.and_eq_true, List.all_eq_true]
  rw [argumentsMismatchLoop_false_iff sigTypes args 0]
  constructor
  · rintro ⟨hlen, hmatch⟩
    refine ⟨by rw [beq_iff_eq]; omega, ?_⟩
    intro j hj
    rw [List.mem_range] at hj
    have hm := hmatch j hj
    have hidx : 0 + j + 1 = j + 1 := by omega
    rw [hidx] at hm
    rw [Bool.or_eq_true, beq_iff_eq, beq_iff_eq]
    exact hm
  · rintro ⟨hlen, hmatch⟩
    rw [beq_iff_eq] at hlen
    refine ⟨by omega, ?_⟩
    intro j hj
    have hm := hmatch j (List.mem_range.mpr hj)
    have hidx : 0 + j + 1 = j + 1 := by omega
    rw [hidx]
    rw [Bool.or_eq_true, beq_iff_eq, beq_iff_eq] at hm
    exact hm

/-- C5: the candidate loop of CallTarget_RequestRejitForModule registers
an enumerated candidate exactly when its FunctionInfo is valid, its
signature parses, its parsed argument count equals the descriptor
argument count and every argument position matches the descriptor entry
or the wildcard "_"; a count or per-argument mismatch skips only that
candidate, producing one debug-level log event while the remaining
candidates are still processed. -/
theorem spec_c5_candidate_matching (sigTypes : List String)
    (cands : List CandidateMethod)
    (h1 : 0 < sigTypes.length) (h2 : sigTypes.length < 2 ^ 64) :
    (callTargetScanCandidates sigTypes cands).1
      = (cands.filter (fun c => c.callerValid && c.parseOk
          && specArgumentMatchesB sigTypes c.argTypeNames)).map (fun c => c.methodDef)
    ∧ (∀ c rest, c.callerValid = true → c.parseOk = true →
        specArgumentMatchesB sigTypes c.argTypeNames = false →
        (callTargetScanCandidates sigTypes (c :: rest)).1
          = (callTargetScanCandidates sigTypes rest).1
        ∧ ∃ e, (callTargetScanCandidates sigTypes (c :: rest)).2
            = e :: (callTargetScanCandidates sigTypes rest).2
          ∧ (e = ScanLogEvent.debugCountMismatch
              ∨ e = ScanLogEvent.debugArgTypeMismatch)) := by
  constructor
  · induction cands with
    | nil => rfl
    | cons c rest ih =>
      cases hv : c.callerValid with
      | false => simp [callTargetScanCandidates, hv, List.filter_cons, ih]
      | true =>
        cases hp : c.parseOk with
        | false => simp [callTargetScanCandidates, hv, hp, List.filter_cons, ih]
        | true =>
          by_cases hcount : c.argTypeNames.length = sizeTSubOne sigTypes.length
          · by_cases hmm : argumentsMismatchLoop sigTypes c.argTypeNames 0 = true
            · have hspec : specArgumentMatchesB sigTypes c.argTypeNames = false := by
                cases hb : specArgumentMatchesB sigTypes c.argTypeNames with
                | false => rfl
                | true =>
                  have := ((code_match_iff_spec sigTypes c.argTypeNames h1 h2).mpr hb).2
                  rw [this] at hmm
                  cases hmm
              simp [callTargetScanCandidates, hv, hp, hcount, hmm, List.filter_cons,
                hspec, ih]
            · have hspec : specArgumentMatchesB sigTypes c.argTypeNames = true :=
                (code_match_iff_spec sigTypes c.argTypeNames h1 h2).mp
                  ⟨hcount, by simpa using hmm⟩
              simp [callTargetScanCandidates, hv, hp, hcount, hmm, List.filter_cons,
                hspec, ih]
          · have hspec : specArgumentMatchesB sigTypes c.argTypeNames = false := by
              cases hb : specArgumentMatchesB sigTypes c.argTypeNames with
              | false => rfl
              | true =>
                exact absurd ((code_match_iff_spec sigTypes c.argTypeNames h1 h2).mpr
                  hb).1 hcount
            simp [callTargetScanCandidates, hv, hp, hcount, List.filter_cons, hspec, ih]
  · intro c rest hv hp hspec
    by_cases hcount : c.argTypeNames.length = sizeTSubOne sigTypes.length
    · have hloop : argumentsMismatchLoop sigTypes c.argTypeNames 0 = true := by
        cases hb : argumentsMismatchLoop sigTypes c.argTypeNames 0 with
        | true => rfl
        | false =>
          have := (code_match_iff_spec sigTypes c.argTypeNames h1 h2).mp ⟨hcount, hb⟩
          rw [this] at hspec
          cases hspec
      refine ⟨?_, ⟨.debugArgTypeMismatch, ?_, Or.inr rfl⟩⟩ <;>
        simp [callTargetScanCandidates, hv, hp, hcount, hloop]
    · refine ⟨?_, ⟨.debugCountMismatch, ?_, Or.inl rfl⟩⟩ <;>
        simp [callTargetScanCandidates, hv, hp, hcount]

/-- Witness for spec_c5_candidate_matching: against a descriptor with
return type, one concrete argument type and one wildcard, the scan
registers exactly the matching overload and skips the count-mismatched,
type-mismatched and invalid candidates. -/
theorem spec_c5_candidate_matching_witness :
    (callTargetScanCandidates ["System.Void", "System.Int32", "_"]
      [⟨101, true, true, ["System.Int32", "System.String"]⟩,
       ⟨102, true, true, ["System.Int32"]⟩,
       ⟨103, true, true, ["System.Boolean", "System.String"]⟩,
       ⟨104, false, true, []⟩]).1 = [101] := by
  have hmain := (spec_c5_candidate_matching ["System.Void", "System.Int32", "_"]
    [⟨101, true, true, ["System.Int32", "System.String"]⟩,
     ⟨102, true, true, ["System.Int32"]⟩,
     ⟨103, true, true, ["System.Boolean", "System.String"]⟩,
     ⟨104, false, true, []⟩] (by decide) (by decide)).1
  rw [hmain]
  rfl

/-- Helper: a trace that never takes the guard trivially satisfies the
re-check discipline. -/
theorem recheckAfterGuard_of_not_mem (l : List Action)
    (h : Action.acquireGuard ∉ l) : recheckAfterGuard l = true := by
  induction l with
  | nil => rfl
  | cons a rest ih =>
    have ha : a ≠ Action.acquireGuard := fun he => h (he ▸ List.mem_cons_self a rest)
    have hrest : Action.acquireGuard ∉ rest := fun hm => h (List.mem_cons_of_mem a hm)
    cases a <;> simp_all [recheckAfterGuard]

/-- Helper: the double-checked prologue check, acquire, check followed
by a guard-free body satisfies the re-check discipline. -/
theorem recheckAfterGuard_guarded_prefix (tr : List Action)
    (h : Action.acquireGuard ∉ tr) :
    recheckAfterGuard ([Action.checkAttached, Action.acquireGuard,
      Action.checkAttached] ++ tr ++ [Action.releaseGuard]) = true := by
  have h2 : Action.acquireGuard ∉ tr ++ [Action.releaseGuard] := by
    intro hm
    rcases List.mem_append.mp hm with hm | hm
    · exact h hm
    · simp at hm
  exact recheckAfterGuard_of_not_mem (tr ++ [Action.releaseGuard]) h2

/-- Helper: a guard acquisition immediately followed by the flag check
and then a guard-free body satisfies the re-check discipline. -/
theorem recheckAfterGuard_guard_first (tr : List Action)
    (h : Action.acquireGuard ∉ tr) :
    recheckAfterGuard ([Action.acquireGuard, Action.checkAttached] ++ tr
      ++ [Action.releaseGuard]) = true := by
  have h2 : Action.acquireGuard ∉ tr ++ [Action.releaseGuard] := by
    intro hm
    rcases List.mem_append.mp hm with hm | hm
    · exact h hm
    · simp at hm
  exact recheckAfterGuard_of_not_mem (tr ++ [Action.releaseGuard]) h2

/-- Counterexample to C9, refuting both universals of the claim.  On an
attached state with a loaded module, GetReJITParameters acquires the
module cache guard but does not re-check the attached flag after
acquiring it.  And on a state whose attached flag is already cleared
but whose rejit handler is still alive (the state ProfilerDetachSucceeded
leaves behind), Shutdown never checks the flag, still touches rejit
state under the guard, and destroys the rejit handler, so it is not a
no-op once the flag is cleared. -/
theorem spec_c9_counterexample :
    (Action.acquireGuard
        ∈ (getReJITParameters ⟨true, [(5, ⟨1⟩)], some ⟨[(5, [10])]⟩, [], []⟩ 5 10).trace
      ∧ recheckAfterGuard
          (getReJITParameters ⟨true, [(5, ⟨1⟩)], some ⟨[(5, [10])]⟩, [], []⟩ 5 10).trace
        = false)
    ∧ (Action.checkAttached ∉ (shutdown ⟨false, [], some ⟨[(5, [10])]⟩, [], []⟩).trace
      ∧ touchesEngineState (shutdown ⟨false, [], some ⟨[(5, [10])]⟩, [], []⟩).trace
        = true
      ∧ (shutdown ⟨false, [], some ⟨[(5, [10])]⟩, [], []⟩).state.rejit = none) := by
  decide

/-- C9 as amended, covering every host callback of cor_profiler.cpp
other than Initialize (the attach itself): ModuleLoadFinished,
ModuleUnloadStarted, AppDomainShutdownFinished, ProfilerDetachSucceeded
and JITCompilationStarted check the attached flag on entry and re-check
it immediately after acquiring the module cache guard;
AssemblyLoadFinished performs its only check immediately after acquiring
the guard; GetReJITParameters and JITCachedFunctionSearchStarted check
the flag only before acquiring the guard, with no re-check after;
JITInlining, ReJITCompilationStarted, ReJITCompilationFinished and
ReJITError check it without ever acquiring the guard; Shutdown never
checks it.  Once the flag is cleared, every one of these entry points
except Shutdown returns success without reading or modifying any
module, rejit or metadata state, while Shutdown still acquires the
guard and, when the rejit handler is alive, touches and destroys it. -/
theorem spec_c9_amended (st : ProfilerState) (m t a : Nat)
    (pb hrF hrFa safeB : Bool) (fi : Option (Nat × Nat))
    (k ka kj : ProfilerState → ProfilerState × List Action)
    (hk : ∀ s, Action.acquireGuard ∉ (k s).2)
    (hka : ∀ s, Action.acquireGuard ∉ (ka s).2)
    (hkj : ∀ s, Action.acquireGuard ∉ (kj s).2) :
    (st.isAttached = false →
      ((getReJITParameters st m t).hr = .sOk ∧ (getReJITParameters st m t).state = st
        ∧ touchesEngineState (getReJITParameters st m t).trace = false)
      ∧ ((moduleUnloadStarted st m).hr = .sOk ∧ (moduleUnloadStarted st m).state = st
        ∧ touchesEngineState (moduleUnloadStarted st m).trace = false)
      ∧ ((jitInlining st fi).hr = .sOk ∧ (jitInlining st fi).state = st
        ∧ touchesEngineState (jitInlining st fi).trace = false)
      ∧ ((reJITCompilationStarted st).hr = .sOk
        ∧ (reJITCompilationStarted st).state = st
        ∧ touchesEngineState (reJITCompilationStarted st).trace = false)
      ∧ ((reJITCompilationFinished st).hr = .sOk
        ∧ (reJITCompilationFinished st).state = st
        ∧ touchesEngineState (reJITCompilationFinished st).trace = false)
      ∧ ((reJITError st).hr = .sOk ∧ (reJITError st).state = st
        ∧ touchesEngineState (reJITError st).trace = false)
      ∧ ((appDomainShutdownFinished st a).hr = .sOk
        ∧ (appDomainShutdownFinished st a).state = st
        ∧ touchesEngineState (appDomainShutdownFinished st a).trace = false)
      ∧ ((profilerDetachSucceeded st).hr = .sOk
        ∧ (profilerDetachSucceeded st).state = st
        ∧ touchesEngineState (profilerDetachSucceeded st).trace = false)
      ∧ ((jitCachedFunctionSearchStarted st pb fi).hr = .sOk
        ∧ (jitCachedFunctionSearchStarted st pb fi).state = st
        ∧ touchesEngineState (jitCachedFunctionSearchStarted st pb fi).trace = false)
      ∧ ((moduleLoadFinished st hrF k).hr = .sOk
        ∧ (moduleLoadFinished st hrF k).state = st
        ∧ touchesEngineState (moduleLoadFinished st hrF k).trace = false)
      ∧ ((assemblyLoadFinished st hrFa ka).hr = .sOk
        ∧ (assemblyLoadFinished st hrFa ka).state = st
        ∧ touchesEngineState (assemblyLoadFinished st hrFa ka).trace = false)
      ∧ ((jitCompilationStarted st safeB kj).hr = .sOk
        ∧ (jitCompilationStarted st safeB kj).state = st
        ∧ touchesEngineState (jitCompilationStarted st safeB kj).trace = false))
    ∧ (st.isAttached = true →
      recheckAfterGuard (moduleUnloadStarted st m).trace = true
      ∧ recheckAfterGuard (appDomainShutdownFinished st a).trace = true
      ∧ recheckAfterGuard (profilerDetachSucceeded st).trace = true
      ∧ recheckAfterGuard (moduleLoadFinished st hrF k).trace = true
      ∧ recheckAfterGuard (assemblyLoadFinished st hrFa ka).trace = true
      ∧ (hrFa = false →
          (assemblyLoadFinished st hrFa ka).trace.take 2
            = [Action.acquireGuard, Action.checkAttached])
      ∧ recheckAfterGuard (jitCompilationStarted st safeB kj).trace = true
      ∧ (getReJITParameters st m t).trace.head? = some .checkAttached
      ∧ recheckAfterGuard (getReJITParameters st m t).trace = false
      ∧ (pb = true →
          (jitCachedFunctionSearchStarted st pb fi).trace.head? = some .checkAttached
          ∧ recheckAfterGuard (jitCachedFunctionSearchStarted st pb fi).trace
            = false)
      ∧ Action.acquireGuard ∉ (jitInlining st fi).trace
      ∧ Action.acquireGuard ∉ (reJITCompilationStarted st).trace
      ∧ Action.acquireGuard ∉ (reJITCompilationFinished st).trace
      ∧ Action.acquireGuard ∉ (reJITError st).trace)
    ∧ ((shutdown st).hr = .sOk
      ∧ Action.checkAttached ∉ (shutdown st).trace
      ∧ Action.acquireGuard ∈ (shutdown st).trace
      ∧ (shutdown st).state.rejit = none
      ∧ (∀ rh, st.rejit = some rh → touchesEngineState (shutdown st).trace = true)) := by
  refine ⟨?_, ?_, ?_⟩
  · intro hA
    refine ⟨?_, ?_, ?_, ?_, ?_, ?_, ?_, ?_, ?_, ?_, ?_, ?_⟩
    · exact ⟨by simp [getReJITParameters, hA], by simp [getReJITParameters, hA],
        by simp [getReJITParameters, hA, touchesEngineState]⟩
    · exact ⟨by simp [moduleUnloadStarted, hA], by simp [moduleUnloadStarted, hA],
        by simp [moduleUnloadStarted, hA, touchesEngineState]⟩
    · exact ⟨by simp [jitInlining, hA], by simp [jitInlining, hA],
        by simp [jitInlining, hA, touchesEngineState]⟩
    · exact ⟨by simp [reJITCompilationStarted, hA],
        by simp [reJITCompilationStarted, hA],
        by simp [reJITCompilationStarted, hA, touchesEngineState]⟩
    · exact ⟨by simp [reJITCompilationFinished],
        by simp [reJITCompilationFinished],
        by simp [reJITCompilationFinished, touchesEngineState]⟩
    · exact ⟨by simp [reJITError], by simp [reJITError],
        by simp [reJITError, touchesEngineState]⟩
    · exact ⟨by simp [appDomainShutdownFinished, hA],
        by simp [appDomainShutdownFinished, hA],
        by simp [appDomainShutdownFinished, hA, touchesEngineState]⟩
    · exact ⟨by simp [profilerDetachSucceeded, hA],
        by simp [profilerDetachSucceeded, hA],
        by simp [profilerDetachSucceeded, hA, touchesEngineState]⟩
    · exact ⟨by simp [jitCachedFunctionSearchStarted, hA],
        by simp [jitCachedFunctionSearchStarted, hA],
        by simp [jitCachedFunctionSearchStarted, hA, touchesEngineState]⟩
    · cases hrF <;>
        exact ⟨by simp [moduleLoadFinished, hA], by simp [moduleLoadFinished, hA],
          by simp [moduleLoadFinished, hA, touchesEngineState]⟩
    · cases hrFa <;>
        exact ⟨by simp [assemblyLoadFinished, hA], by simp [assemblyLoadFinished, hA],
          by simp [assemblyLoadFinished, hA, touchesEngineState]⟩
    · exact ⟨by simp [jitCompilationStarted, hA],
        by simp [jitCompilationStarted, hA],
        by simp [jitCompilationStarted, hA, touchesEngineState]⟩
  · intro hA
    refine ⟨?_, ?_, ?_, ?_, ?_, ?_, ?_, ?_, ?_, ?_, ?_, ?_, ?_, ?_⟩
    · cases hf : findModuleMetadata st.moduleMap m <;>
        simp [moduleUnloadStarted, hA, hf, recheckAfterGuard]
    · simp [appDomainShutdownFinished, hA, recheckAfterGuard]
    · simp [profilerDetachSucceeded, hA, recheckAfterGuard]
    · cases hrF with
      | true => simp [moduleLoadFinished, recheckAfterGuard]
      | false =>
        cases hrj : st.rejit with
        | none => simp [moduleLoadFinished, hA, hrj, recheckAfterGuard]
        | some rh =>
          have htr : (moduleLoadFinished st false k).trace
              = [Action.checkAttached, Action.acquireGuard, Action.checkAttached]
                ++ (k st).2 ++ [Action.releaseGuard] := by
            simp [moduleLoadFinished, hA, hrj]
          rw [htr]
          exact recheckAfterGuard_guarded_prefix (k st).2 (hk st)
    · cases hrFa with
      | true => simp [assemblyLoadFinished, recheckAfterGuard]
      | false =>
        have htr : (assemblyLoadFinished st false ka).trace
            = [Action.acquireGuard, Action.checkAttached]
              ++ (ka st).2 ++ [Action.releaseGuard] := by
          simp [assemblyLoadFinished, hA]
        rw [htr]
        exact recheckAfterGuard_guard_first (ka st).2 (hka st)
    · intro hfa
      subst hfa
      have htr : (assemblyLoadFinished st false ka).trace
          = [Action.acquireGuard, Action.checkAttached]
            ++ (ka st).2 ++ [Action.releaseGuard] := by
        simp [assemblyLoadFinished, hA]
      rw [htr]
      rfl
    · cases safeB with
      | false => simp [jitCompilationStarted, hA, recheckAfterGuard]
      | true =>
        have htr : (jitCompilationStarted st true kj).trace
            = [Action.checkAttached, Action.acquireGuard, Action.checkAttached]
              ++ (kj st).2 ++ [Action.releaseGuard] := by
          simp [jitCompilationStarted, hA]
        rw [htr]
        exact recheckAfterGuard_guarded_prefix (kj st).2 (hkj st)
    · cases hf : findModuleMetadata st.moduleMap m <;>
        simp [getReJITParameters, hA, hf]
    · cases hf : findModuleMetadata st.moduleMap m <;>
        simp [getReJITParameters, hA, hf, recheckAfterGuard]
    · intro hpb
      subst hpb
      cases fi with
      | none =>
        exact ⟨by simp [jitCachedFunctionSearchStarted, hA],
          by simp [jitCachedFunctionSearchStarted, hA, recheckAfterGuard]⟩
      | some p =>
        obtain ⟨mid, tok⟩ := p
        cases hf : findModuleMetadata st.moduleMap mid with
        | none =>
          exact ⟨by simp [jitCachedFunctionSearchStarted, hA, hf],
            by simp [jitCachedFunctionSearchStarted, hA, hf, recheckAfterGuard]⟩
        | some md =>
          constructor
          · simp [jitCachedFunctionSearchStarted, hA, hf]
            split <;> rfl
          · simp [jitCachedFunctionSearchStarted, hA, hf]
            split <;> rfl
    · simp only [jitInlining]
      repeat' split
      all_goals simp
    · simp [reJITCompilationStarted, hA]
    · simp [reJITCompilationFinished]
    · simp [reJITError]
  · cases hsd : st.rejit with
    | none =>
      refine ⟨by simp [shutdown, hsd], by simp [shutdown, hsd],
        by simp [shutdown, hsd], by simp [shutdown, hsd], ?_⟩
      intro rh hrh
      cases hrh
    | some rh0 =>
      exact ⟨by simp [shutdown, hsd], by simp [shutdown, hsd],
        by simp [shutdown, hsd], by simp [shutdown, hsd],
        fun rh _ => by simp [shutdown, hsd, touchesEngineState]⟩

/-- Witness for spec_c9_amended: a detached state makes
GetReJITParameters a state-untouching no-op, an attached unload
re-checks the flag under the guard, and Shutdown on a detached state
with a live rejit handler still destroys it. -/
theorem spec_c9_amended_witness :
    touchesEngineState (getReJITParameters ⟨false, [], none, [], []⟩ 1 2).trace = false
    ∧ recheckAfterGuard
        (moduleUnloadStarted ⟨true, [(5, ⟨1⟩)], some ⟨[(5, [10])]⟩, [], []⟩ 5).trace
      = true
    ∧ touchesEngineState (shutdown ⟨false, [], some ⟨[(5, [10])]⟩, [], []⟩).trace
      = true := by
  refine ⟨?_, ?_, ?_⟩
  · exact ((spec_c9_amended ⟨false, [], none, [], []⟩ 1 2 0 true true true true none
      (fun s => (s, [])) (fun s => (s, [])) (fun s => (s, []))
      (fun s => by simp) (fun s => by simp) (fun s => by simp)).1 rfl).1.2.2
  · exact ((spec_c9_amended ⟨true, [(5, ⟨1⟩)], some ⟨[(5, [10])]⟩, [], []⟩ 5 10 0 true
      true true true none (fun s => (s, [])) (fun s => (s, [])) (fun s => (s, []))
      (fun s => by simp) (fun s => by simp) (fun s => by simp)).2.1 rfl).1
  · exact (spec_c9_amended ⟨false, [], some ⟨[(5, [10])]⟩, [], []⟩ 1 2 0 true true true
      true none (fun s => (s, [])) (fun s => (s, [])) (fun s => (s, []))
      (fun s => by simp) (fun s => by simp) (fun s => by simp)).2.2.2.2.2.2
      ⟨[(5, [10])]⟩ rfl

end OTelProfiler
